import Mathlib

/-!
Verification of the list-query construction logic of the bad-server backend
(controllers: order.ts with its two concatenated variants, the part_001
variant, customers.ts, products.ts).

The embedding models the JavaScript host primitives the controllers call:
parseInt, Number(), Date parsing at day granularity, the escape-string-regexp
package, validator.escape, and String.prototype.trim.  Numbers are modelled as
exact rationals extended with the two infinities (NaN is Option.none); the
float rounding of doubles is not modelled because no claim depends on it.
-/

namespace BadServer

/-- Whitespace recognized by the modelled JS string trimming. -/
def isWsChar (c : Char) : Bool :=
  c = ' ' || c = '\t' || c = '\n' || c = '\r' || c = '\x0b' || c = '\x0c'

/-- Drop leading JS whitespace. -/
def dropWs (cs : List Char) : List Char := cs.dropWhile isWsChar

/-- Trim JS whitespace at both ends. -/
def trimWsChars (cs : List Char) : List Char :=
  ((cs.dropWhile isWsChar).reverse.dropWhile isWsChar).reverse

/-- Numeric value of a decimal digit character. -/
def digitVal (c : Char) : Nat := c.toNat - 48

/-- Value of a list of decimal digit characters. -/
def digitsToNat (ds : List Char) : Nat :=
  ds.foldl (fun a c => a * 10 + digitVal c) 0

/-- Hexadecimal digit value, none for other characters. -/
def hexVal (c : Char) : Option Nat :=
  if c.isDigit then some (digitVal c)
  else if 'a' ≤ c ∧ c ≤ 'f' then some (c.toNat - 87)
  else if 'A' ≤ c ∧ c ≤ 'F' then some (c.toNat - 55)
  else none

def isHexDigitB (c : Char) : Bool := (hexVal c).isSome

def hexDigitsToNat (ds : List Char) : Nat :=
  ds.foldl (fun a c => a * 16 + ((hexVal c).getD 0)) 0

/-- Value of the longest leading run of decimal digits; none when it is empty.
Models how parseInt consumes input: trailing garbage is ignored. -/
def leadingDigitsVal (cs : List Char) : Option Nat :=
  let ds := cs.takeWhile Char.isDigit
  if ds.isEmpty then none else some (digitsToNat ds)

/-- Same for hexadecimal digits (parseInt after an 0x prefix). -/
def leadingHexVal (cs : List Char) : Option Nat :=
  let ds := cs.takeWhile isHexDigitB
  if ds.isEmpty then none else some (hexDigitsToNat ds)

/-- Shared body of the two parseInt models: optional sign, then digits. -/
def jsParseIntCore (body : List Char → Option Nat) (s : String) : Option Int :=
  match dropWs s.toList with
  | '-' :: rest => (body rest).map (fun n => -(n : Int))
  | '+' :: rest => (body rest).map (fun n => (n : Int))
  | cs => (body cs).map (fun n => (n : Int))

/-- parseInt(s, 10): leading whitespace, optional sign, leading decimal
digits, rest ignored; NaN (none) when no digit is consumed. -/
def jsParseInt10 (s : String) : Option Int :=
  jsParseIntCore leadingDigitsVal s

/-- parseInt(s) without an explicit radix: as jsParseInt10 but an 0x or 0X
prefix switches to hexadecimal. -/
def jsParseIntDefault (s : String) : Option Int :=
  jsParseIntCore
    (fun cs =>
      match cs with
      | '0' :: c :: rest =>
        if c = 'x' ∨ c = 'X' then leadingHexVal rest else leadingDigitsVal cs
      | _ => leadingDigitsVal cs)
    s

/-- A JavaScript number that is not NaN: an exact rational or an infinity. -/
inductive JsNum where
  | fin (q : ℚ)
  | posInf
  | negInf
deriving DecidableEq, Repr

/-- Negation, used for the sign of a parsed literal. -/
def JsNum.neg : JsNum → JsNum
  | .fin q => .fin (-q)
  | .posInf => .negInf
  | .negInf => .posInf

/-- The test amount >= 0 of the controllers. -/
def JsNum.nonneg : JsNum → Bool
  | .fin q => decide (0 ≤ q)
  | .posInf => true
  | .negInf => false

/-- The test searchNumber > 0 of the controllers. -/
def JsNum.posB : JsNum → Bool
  | .fin q => decide (0 < q)
  | .posInf => true
  | .negInf => false

/-- Math.max(0, a). -/
def JsNum.max0 : JsNum → JsNum
  | .fin q => .fin (max 0 q)
  | .posInf => .posInf
  | .negInf => .fin 0

/-- Exponent suffix of a decimal literal; the empty rest means exponent 0 and
anything but a fully consumed e/E exponent is a parse failure. -/
def parseExpPart : List Char → Option Int
  | [] => some 0
  | c :: rest =>
    if c = 'e' ∨ c = 'E' then
      match rest with
      | '+' :: r =>
        if r.isEmpty ∨ ¬ r.all Char.isDigit then none else some (digitsToNat r : Int)
      | '-' :: r =>
        if r.isEmpty ∨ ¬ r.all Char.isDigit then none else some (-(digitsToNat r : Int))
      | r =>
        if r.isEmpty ∨ ¬ r.all Char.isDigit then none else some (digitsToNat r : Int)
    else none

/-- The rational mant * 10 ^ exp, built from integer arithmetic and one
mkRat so that it evaluates by kernel reduction. -/
def decimalValue (mant : Nat) (exp : Int) : ℚ :=
  match exp with
  | .ofNat k => ((mant * 10 ^ k : Nat) : ℚ)
  | .negSucc k => mkRat (mant : Int) (10 ^ (k + 1))

/-- Unsigned decimal literal: digits, optional fraction, optional exponent;
the whole input must be consumed.  The digits of the integer and fraction
parts concatenate into the mantissa, the fraction length shifts the
exponent. -/
def parseDecCore (cs : List Char) : Option ℚ :=
  let ip := cs.takeWhile Char.isDigit
  let r1 := cs.dropWhile Char.isDigit
  match r1 with
  | '.' :: r2 =>
    let fp := r2.takeWhile Char.isDigit
    let r3 := r2.dropWhile Char.isDigit
    if ip.isEmpty ∧ fp.isEmpty then none
    else
      (parseExpPart r3).map (fun e =>
        decimalValue (digitsToNat (ip ++ fp)) (e - (fp.length : Int)))
  | _ =>
    if ip.isEmpty then none
    else (parseExpPart r1).map (fun e => decimalValue (digitsToNat ip) e)

/-- Unsigned part of a StrDecimalLiteral: Infinity or a decimal literal. -/
def parseUnsignedNum (cs : List Char) : Option JsNum :=
  if cs = ['I', 'n', 'f', 'i', 'n', 'i', 't', 'y'] then some .posInf
  else (parseDecCore cs).map .fin

/-- Signed decimal literal. -/
def parseSignedNum : List Char → Option JsNum
  | '+' :: rest => parseUnsignedNum rest
  | '-' :: rest => (parseUnsignedNum rest).map JsNum.neg
  | cs => parseUnsignedNum cs

/-- Non-decimal integer literal body after a 0x / 0o / 0b prefix: every
remaining character must be a digit of the radix. -/
def parseRadixAll (radix : Nat) (valid : Char → Bool) (toVal : Char → Nat)
    (cs : List Char) : Option JsNum :=
  if cs.isEmpty ∨ ¬ cs.all valid then none
  else some (.fin ((cs.foldl (fun a c => a * radix + toVal c) 0 : Nat) : ℚ))

def octVal (c : Char) : Nat := digitVal c
def binVal (c : Char) : Nat := digitVal c

/-- Number(s) on a string: the ECMAScript StringNumericLiteral grammar over
exact rationals.  none is NaN; the empty or all-whitespace string is 0. -/
def jsToNumber (s : String) : Option JsNum :=
  let cs := trimWsChars s.toList
  if cs.isEmpty then some (.fin 0)
  else
    match cs with
    | '0' :: c :: rest =>
      if c = 'x' ∨ c = 'X' then parseRadixAll 16 isHexDigitB (fun d => (hexVal d).getD 0) rest
      else if c = 'o' ∨ c = 'O' then
        parseRadixAll 8 (fun d => d.isDigit && d < '8') octVal rest
      else if c = 'b' ∨ c = 'B' then
        parseRadixAll 2 (fun d => d = '0' || d = '1') binVal rest
      else parseSignedNum cs
    | _ => parseSignedNum cs

/-- Calendar date and time of day, as the controllers see a parsed Date under
a fixed timezone. -/
structure JsDate where
  year : Nat
  month : Nat
  day : Nat
  hour : Nat
  minute : Nat
  second : Nat
  ms : Nat
deriving DecidableEq, Repr

def isLeapYear (y : Nat) : Bool :=
  y % 4 = 0 && (y % 100 ≠ 0 || y % 400 = 0)

def daysInMonth (y m : Nat) : Nat :=
  if m = 2 then (if isLeapYear y then 29 else 28)
  else if m = 4 ∨ m = 6 ∨ m = 9 ∨ m = 11 then 30
  else 31

/-- new Date(s) restricted to the day-granularity ISO form YYYY-MM-DD the
spec quantifies over; out-of-range components are an Invalid Date (none). -/
def jsParseDate (s : String) : Option JsDate :=
  match s.toList with
  | [y1, y2, y3, y4, '-', m1, m2, '-', d1, d2] =>
    if [y1, y2, y3, y4, m1, m2, d1, d2].all Char.isDigit then
      if 1 ≤ digitsToNat [m1, m2] ∧ digitsToNat [m1, m2] ≤ 12 ∧
          1 ≤ digitsToNat [d1, d2] ∧
          digitsToNat [d1, d2] ≤
            daysInMonth (digitsToNat [y1, y2, y3, y4]) (digitsToNat [m1, m2]) then
        some
          ⟨digitsToNat [y1, y2, y3, y4], digitsToNat [m1, m2],
            digitsToNat [d1, d2], 0, 0, 0, 0⟩
      else none
    else none
  | _ => none

/-- date.setHours(23, 59, 59, 999): the end-of-day normalization. -/
def endOfDay (d : JsDate) : JsDate :=
  { d with hour := 23, minute := 59, second := 59, ms := 999 }

/-- A structurally valid calendar instant. -/
def JsDate.valid (d : JsDate) : Bool :=
  decide (1 ≤ d.month) && decide (d.month ≤ 12) && decide (1 ≤ d.day) &&
    decide (d.day ≤ daysInMonth d.year d.month) && decide (d.hour ≤ 23) &&
    decide (d.minute ≤ 59) && decide (d.second ≤ 59) && decide (d.ms ≤ 999)

/-- The characters the escape-string-regexp package backslash-escapes. -/
def regexSpecials : List Char :=
  ['|', '\\', '\x7b', '\x7d', '(', ')', '[', ']', '^', '$', '+', '*', '?', '.']

/-- Escape of one character: specials get a backslash, a dash becomes the
four characters backslash x 2 d, anything else is kept. -/
def escapeChar (c : Char) : List Char :=
  if regexSpecials.contains c then ['\\', c]
  else if c = '-' then ['\\', 'x', '2', 'd']
  else [c]

def escapeChars (cs : List Char) : List Char :=
  cs.foldr (fun c acc => escapeChar c ++ acc) []

/-- The escape-string-regexp package: the escaped string denotes the input as
a literal regex. -/
def escapeStringRegexp (s : String) : String :=
  String.mk (escapeChars s.toList)

/-- A pattern is a literal regex: every special character is consumed by a
preceding backslash. -/
def literalEscapedChars : List Char → Bool
  | [] => true
  | c :: rest =>
    if c = '\\' then
      match rest with
      | [] => false
      | _ :: rest' => literalEscapedChars rest'
    else if regexSpecials.contains c then false
    else literalEscapedChars rest

/-- Boolean prefix test on character lists. -/
def prefixOfB : List Char → List Char → Bool
  | [], _ => true
  | _ :: _, [] => false
  | a :: as, b :: bs => a = b && prefixOfB as bs

/-- Boolean infix (substring) test on character lists. -/
def infixOfB (t : List Char) : List Char → Bool
  | [] => prefixOfB t []
  | b :: bs => prefixOfB t (b :: bs) || infixOfB t bs

/-- t occurs in s as a substring. -/
def containsSubstrB (t s : String) : Bool := infixOfB t.toList s.toList

def lowerChars (cs : List Char) : List Char := cs.map Char.toLower

/-- Matching a case-insensitive literal regex built from raw against a
subject: raw occurs in the subject up to case. -/
def regexIMatch (raw subject : String) : Bool :=
  infixOfB (lowerChars raw.toList) (lowerChars subject.toList)

/-- The deny-listed MongoDB operator tokens of the part_001 orders listing,
in source order; the regex there is an unanchored alternation of these
literals, so testing it is substring containment of any token. -/
def denyTokens : List String :=
  ["$where", "$eq", "$ne", "$gt", "$gte", "$lt", "$lte", "$in", "$nin",
   "$or", "$and", "$not", "$nor", "$exists", "$type", "$mod", "$regex",
   "$text", "$where", "$geoWithin", "$geoIntersects", "$near", "$nearSphere",
   "$all", "$elemMatch", "$size", "$bitsAllClear", "$bitsAllSet",
   "$bitsAnyClear", "$bitsAnySet", "$comment", "$meta", "$slice", "$natural"]

/-- dangerousPatterns.test(search). -/
def denyListed (s : String) : Bool :=
  denyTokens.any (fun t => containsSubstrB t s)

/-! ## The filter expression handed to the document store -/

/-- A member of an $or array: a case-insensitive literal regex on a field, or
an equality on orderNumber. -/
inductive OrCond where
  | fieldRegex (field : String) (pattern : String)
  | orderNumberEq (n : JsNum)
deriving DecidableEq, Repr

/-- A value of one key of the filter object. -/
inductive MongoVal where
  | str (s : String)
  | num (n : JsNum)
  | date (d : JsDate)
  | oid (id : Nat)
  | numRange (lo hi : Option JsNum)
  | dateRange (lo hi : Option JsDate)
  | orList (cs : List OrCond)
  | inOids (ids : List Nat)
deriving DecidableEq, Repr

/-- The filter object: keys with their values, in insertion order. -/
abbrev MongoFilter := List (String × MongoVal)

/-- Assignment filters.k = v on a JS object: replace the key if present,
append it otherwise. -/
def setKey : MongoFilter → String → MongoVal → MongoFilter
  | [], k, v => [(k, v)]
  | (k', v') :: rest, k, v =>
    if k' = k then (k, v) :: rest else (k', v') :: setKey rest k v

/-- Reading filters.k. -/
def getKey : MongoFilter → String → Option MongoVal
  | [], _ => none
  | (k', v') :: rest, k => if k' = k then some v' else getKey rest k

/-- The spread of an existing numeric range value; an absent or differently
shaped key spreads as the empty object. -/
def getNumRange (f : MongoFilter) (k : String) : Option JsNum × Option JsNum :=
  match getKey f k with
  | some (.numRange lo hi) => (lo, hi)
  | _ => (none, none)

/-- The spread of an existing date range value. -/
def getDateRange (f : MongoFilter) (k : String) : Option JsDate × Option JsDate :=
  match getKey f k with
  | some (.dateRange lo hi) => (lo, hi)
  | _ => (none, none)

/-- The $lte side of a date-range key, if any. -/
def dateHiOf : Option MongoVal → Option JsDate
  | some (.dateRange _ hi) => hi
  | _ => none

def optNonneg : Option JsNum → Bool
  | none => true
  | some a => a.nonneg

def optValidDate : Option JsDate → Bool
  | none => true
  | some d => d.valid

/-- Every numeric range bound of this entry is nonnegative (entries of other
shapes impose nothing). -/
def numEntryNonneg (e : String × MongoVal) : Bool :=
  match e.2 with
  | .numRange lo hi => optNonneg lo && optNonneg hi
  | _ => true

/-! ## Pagination normalizer -/

/-- x || d on a parsed integer: NaN (none) and 0 are falsy. -/
def jsOrInt (v : Option Int) (d : Int) : Int :=
  match v with
  | none => d
  | some n => if n = 0 then d else n

/-- pageNum = Math.max(1, parseInt(page) || 1), with the destructuring
default 1 when the parameter is absent. -/
def normalizePage (parse : String → Option Int) (page : Option String) : Int :=
  max 1 (jsOrInt (parse (page.getD "1")) 1)

/-- limitNum = Math.min(maxL, Math.max(1, parseInt(limit) || dflt)). -/
def normalizeLimit (parse : String → Option Int) (maxL dflt : Int)
    (limit : Option String) : Int :=
  min maxL (max 1 (jsOrInt (parse (limit.getD (toString dflt))) dflt))

/-- Math.ceil(n / m) on naturals. -/
def ceilDiv (n m : Nat) : Nat := (n + m - 1) / m

/-! ## Sort resolver -/

/-- The shared sort block: an allow-listed field with an explicit direction,
else createdAt descending. -/
def resolveSort (allowed : List String) (sortField sortOrder : String) :
    List (String × Int) :=
  if !sortField.isEmpty && allowed.contains sortField && !sortOrder.isEmpty then
    [(sortField, if sortOrder = "desc" then -1 else 1)]
  else [("createdAt", -1)]

/-! ## Filter builder steps, one per source if-block -/

def allowedStatuses : List String :=
  ["pending", "processing", "shipped", "delivered", "cancelled"]

/-- The status block, shared by every orders variant: an exact member of the
allowed list or nothing. -/
def stepStatus (raw : Option String) (f : MongoFilter) : MongoFilter :=
  match raw with
  | none => f
  | some s =>
    if !s.isEmpty && allowedStatuses.contains s then setKey f "status" (.str s) else f

/-- Numeric lower bound, first order.ts variant: no spread, included only when
the parse succeeds and the value is nonnegative. -/
def numOnlyGteV1 (fld : String) (raw : Option String) (f : MongoFilter) : MongoFilter :=
  match raw with
  | none => f
  | some s =>
    if s.isEmpty then f
    else
      match jsToNumber s with
      | none => f
      | some a => if a.nonneg then setKey f fld (.numRange (some a) none) else f

/-- Numeric upper bound, first order.ts variant: overwrites the whole range
value (the source does not spread the previous bound). -/
def numOnlyLteV1 (fld : String) (raw : Option String) (f : MongoFilter) : MongoFilter :=
  match raw with
  | none => f
  | some s =>
    if s.isEmpty then f
    else
      match jsToNumber s with
      | none => f
      | some a => if a.nonneg then setKey f fld (.numRange none (some a)) else f

/-- Numeric lower bound with spread, customers.ts and part_001: included only
when nonnegative, keeping a previous upper bound. -/
def numSpreadGte (fld : String) (raw : Option String) (f : MongoFilter) : MongoFilter :=
  match raw with
  | none => f
  | some s =>
    if s.isEmpty then f
    else
      match jsToNumber s with
      | none => f
      | some a =>
        if a.nonneg then setKey f fld (.numRange (some a) (getNumRange f fld).2) else f

/-- Numeric upper bound with spread. -/
def numSpreadLte (fld : String) (raw : Option String) (f : MongoFilter) : MongoFilter :=
  match raw with
  | none => f
  | some s =>
    if s.isEmpty then f
    else
      match jsToNumber s with
      | none => f
      | some a =>
        if a.nonneg then setKey f fld (.numRange (getNumRange f fld).1 (some a)) else f

/-- Numeric lower bound, second order.ts variant: any parsed value is
included, clamped by Math.max(0, amount). -/
def numClampGte (fld : String) (raw : Option String) (f : MongoFilter) : MongoFilter :=
  match raw with
  | none => f
  | some s =>
    if s.isEmpty then f
    else
      match jsToNumber s with
      | none => f
      | some a => setKey f fld (.numRange (some a.max0) (getNumRange f fld).2)

/-- Numeric upper bound, second order.ts variant, clamped. -/
def numClampLte (fld : String) (raw : Option String) (f : MongoFilter) : MongoFilter :=
  match raw with
  | none => f
  | some s =>
    if s.isEmpty then f
    else
      match jsToNumber s with
      | none => f
      | some a => setKey f fld (.numRange (getNumRange f fld).1 (some a.max0))

/-- Date lower bound, first order.ts variant: no spread. -/
def dateOnlyGteV1 (raw : Option String) (f : MongoFilter) : MongoFilter :=
  match raw with
  | none => f
  | some s =>
    if s.isEmpty then f
    else
      match jsParseDate s with
      | none => f
      | some d => setKey f "createdAt" (.dateRange (some d) none)

/-- Date upper bound, first order.ts variant: overwrites the range value with
the end-of-day bound. -/
def dateOnlyLteEodV1 (raw : Option String) (f : MongoFilter) : MongoFilter :=
  match raw with
  | none => f
  | some s =>
    if s.isEmpty then f
    else
      match jsParseDate s with
      | none => f
      | some d => setKey f "createdAt" (.dateRange none (some (endOfDay d)))

/-- Date lower bound with spread (customers.ts, part_001, second order.ts
variant). -/
def dateSpreadGte (fld : String) (raw : Option String) (f : MongoFilter) : MongoFilter :=
  match raw with
  | none => f
  | some s =>
    if s.isEmpty then f
    else
      match jsParseDate s with
      | none => f
      | some d => setKey f fld (.dateRange (some d) (getDateRange f fld).2)

/-- Date upper bound with spread and end-of-day normalization (customers.ts,
part_001). -/
def dateSpreadLteEod (fld : String) (raw : Option String) (f : MongoFilter) : MongoFilter :=
  match raw with
  | none => f
  | some s =>
    if s.isEmpty then f
    else
      match jsParseDate s with
      | none => f
      | some d => setKey f fld (.dateRange (getDateRange f fld).1 (some (endOfDay d)))

/-- Date upper bound with spread and no normalization: the second order.ts
variant uses the parsed date itself. -/
def dateSpreadLteRaw (fld : String) (raw : Option String) (f : MongoFilter) : MongoFilter :=
  match raw with
  | none => f
  | some s =>
    if s.isEmpty then f
    else
      match jsParseDate s with
      | none => f
      | some d => setKey f fld (.dateRange (getDateRange f fld).1 (some d))

def searchTooLongMsg : String := "Слишком длинный поисковый запрос"
def searchDeniedMsg : String := "Недопустимый поисковый запрос"
def searchDisabledMsg : String := "Поиск в заказах временно отключен"
def adminRequiredMsg : String := "Доступ запрещен. Требуются права администратора"

/-- Search block of the first order.ts getOrders: escape, reject over 100
characters, and a positive numeric search filters orderNumber. -/
def stepSearchV1 (raw : Option String) (f : MongoFilter) : Except String MongoFilter :=
  match raw with
  | none => .ok f
  | some s =>
    if s.isEmpty then .ok f
    else
      let safe := escapeStringRegexp s
      if safe.length > 100 then .error searchTooLongMsg
      else
        match jsToNumber s with
        | none => .ok f
        | some n => if n.posB then .ok (setKey f "orderNumber" (.num n)) else .ok f

/-- Search block of customers.ts getCustomers: escape, reject over 100
characters, then an $or regex on name and email; no deny-list runs here. -/
def stepSearchCustomers (raw : Option String) (f : MongoFilter) :
    Except String MongoFilter :=
  match raw with
  | none => .ok f
  | some s =>
    if s.isEmpty then .ok f
    else
      let safe := escapeStringRegexp s
      if safe.length > 100 then .error searchTooLongMsg
      else
        .ok (setKey f "$or"
          (.orList [.fieldRegex "name" safe, .fieldRegex "email" safe]))

/-- Search block of the second order.ts getOrders: escape, length check, then
an $or on the product title regex plus orderNumber when numeric; the same
conditions are also stored on filters for the count. -/
def stepSearchV2 (raw : Option String) (f : MongoFilter) : Except String MongoFilter :=
  match raw with
  | none => .ok f
  | some s =>
    if s.isEmpty then .ok f
    else
      let safe := escapeStringRegexp s
      if safe.length > 100 then .error searchTooLongMsg
      else
        let conds :=
          [OrCond.fieldRegex "products.title" safe] ++
            (match jsToNumber s with
             | some n => [OrCond.orderNumberEq n]
             | none => [])
        .ok (setKey f "$or" (.orList conds))

/-- Search block of the part_001 getOrders: length check, deny-list check,
then $or conditions pushed onto the aggregation pipeline only. -/
def stepSearchP1 (raw : Option String) : Except String (Option (List OrCond)) :=
  match raw with
  | none => .ok none
  | some s =>
    if s.isEmpty then .ok none
    else
      let safe := escapeStringRegexp s
      if safe.length > 100 then .error searchTooLongMsg
      else if denyListed s then .error searchDeniedMsg
      else
        let base :=
          match jsToNumber s with
          | some n => if n.posB then [OrCond.orderNumberEq n] else []
          | none => []
        .ok (some (base ++
          [OrCond.fieldRegex "products.title" safe,
           OrCond.fieldRegex "customer.email" safe,
           OrCond.fieldRegex "customer.name" safe]))

/-! ## Requests, caller context and handler outcomes -/

/-- The authenticated caller placed in res.locals by the auth middleware; the
middleware always attaches a roles array. -/
structure UserCtx where
  roles : List String
deriving DecidableEq, Repr

/-- The admin gate used inline by the first order.ts getOrders, part_001
getOrders and customers.ts: no user, or roles without admin, fails. -/
def adminCheck (user : Option UserCtx) : Bool :=
  match user with
  | none => false
  | some c => c.roles.contains "admin"

/-- Query string of the orders listings. -/
structure OrdersQuery where
  page : Option String := none
  limit : Option String := none
  sortField : Option String := none
  sortOrder : Option String := none
  status : Option String := none
  totalAmountFrom : Option String := none
  totalAmountTo : Option String := none
  orderDateFrom : Option String := none
  orderDateTo : Option String := none
  search : Option String := none
deriving DecidableEq, Repr

/-- Query string of the customers listing. -/
structure CustomersQuery where
  page : Option String := none
  limit : Option String := none
  sortField : Option String := none
  sortOrder : Option String := none
  registrationDateFrom : Option String := none
  registrationDateTo : Option String := none
  lastOrderDateFrom : Option String := none
  lastOrderDateTo : Option String := none
  totalAmountFrom : Option String := none
  totalAmountTo : Option String := none
  orderCountFrom : Option String := none
  orderCountTo : Option String := none
  search : Option String := none
deriving DecidableEq, Repr

/-- Query string of the current-user orders listings. -/
structure CurrentUserQuery where
  search : Option String := none
  page : Option String := none
  limit : Option String := none
deriving DecidableEq, Repr

/-- Outcome of a handler before touching the store: a 403, a 400 passed to
next as a BadRequestError, or a composed query the store will run. -/
inductive HandlerResult (α : Type) where
  | forbidden (msg : String)
  | badRequest (msg : String)
  | ok (val : α)
deriving DecidableEq, Repr

def HandlerResult.isOk {α : Type} : HandlerResult α → Bool
  | .ok _ => true
  | _ => false

/-- The single read the List Query Executor issues: filter, sort, skip and
limit; the count runs on the same filter without skip and limit. -/
structure QueryDescriptor where
  filter : MongoFilter
  sort : List (String × Int)
  skip : Nat
  limit : Nat
deriving DecidableEq, Repr

/-- Query of the part_001 getOrders: the aggregation keeps the base match
filter and the search $or conditions separately. -/
structure AggQueryDescriptor where
  filter : MongoFilter
  searchOr : Option (List OrCond)
  sort : List (String × Int)
  skip : Nat
  limit : Nat
deriving DecidableEq, Repr

/-! ## Handlers -/

def ordersSortAllowedV1 : List String :=
  ["createdAt", "totalAmount", "orderNumber", "status"]

def ordersSortAllowedV2 : List String := ["createdAt", "totalAmount", "orderNumber"]

def customersSortAllowed : List String :=
  ["createdAt", "totalAmount", "orderCount", "lastOrderDate", "name", "email"]

/-- getOrders, first order.ts variant (order.ts lines 10 to 132): admin gate,
limit capped at 10, strict numeric bounds, end-of-day upper date bound that
overwrites the lower one, search by positive order number. -/
def getOrders_v1 (user : Option UserCtx) (q : OrdersQuery) :
    HandlerResult QueryDescriptor :=
  if !adminCheck user then .forbidden adminRequiredMsg
  else
    let pageNum := normalizePage jsParseInt10 q.page
    let limitNum := normalizeLimit jsParseInt10 10 10 q.limit
    let f1 := stepStatus q.status []
    let f2 := numOnlyGteV1 "totalAmount" q.totalAmountFrom f1
    let f3 := numOnlyLteV1 "totalAmount" q.totalAmountTo f2
    let f4 := dateOnlyGteV1 q.orderDateFrom f3
    let f5 := dateOnlyLteEodV1 q.orderDateTo f4
    match stepSearchV1 q.search f5 with
    | .error m => .badRequest m
    | .ok f6 =>
      .ok
        { filter := f6
          sort := resolveSort ordersSortAllowedV1 (q.sortField.getD "createdAt")
            (q.sortOrder.getD "desc")
          skip := ((pageNum - 1) * limitNum).toNat
          limit := limitNum.toNat }

/-- getOrders, second order.ts variant (order.ts lines 472 to 636): no role
check at all, limit capped at 100, clamped numeric bounds, raw upper date
bound, title-regex and order-number search. -/
def getOrders_v2 (_user : Option UserCtx) (q : OrdersQuery) :
    HandlerResult QueryDescriptor :=
  let pageNum := normalizePage jsParseIntDefault q.page
  let limitNum := normalizeLimit jsParseIntDefault 100 10 q.limit
  let f1 := stepStatus q.status []
  let f2 := numClampGte "totalAmount" q.totalAmountFrom f1
  let f3 := numClampLte "totalAmount" q.totalAmountTo f2
  let f4 := dateSpreadGte "createdAt" q.orderDateFrom f3
  let f5 := dateSpreadLteRaw "createdAt" q.orderDateTo f4
  match stepSearchV2 q.search f5 with
  | .error m => .badRequest m
  | .ok f6 =>
    .ok
      { filter := f6
        sort := resolveSort ordersSortAllowedV2 (q.sortField.getD "createdAt")
          (q.sortOrder.getD "desc")
        skip := ((pageNum - 1) * limitNum).toNat
        limit := limitNum.toNat }

/-- getOrders, part_001 variant (part_001 lines 11 to 195): admin gate, limit
capped at 10, spread nonnegative numeric bounds, end-of-day upper date bound,
search with the operator deny-list on the raw string. -/
def getOrders_p1 (user : Option UserCtx) (q : OrdersQuery) :
    HandlerResult AggQueryDescriptor :=
  if !adminCheck user then .forbidden adminRequiredMsg
  else
    let pageNum := normalizePage jsParseInt10 q.page
    let limitNum := normalizeLimit jsParseInt10 10 10 q.limit
    let f1 := stepStatus q.status []
    let f2 := numSpreadGte "totalAmount" q.totalAmountFrom f1
    let f3 := numSpreadLte "totalAmount" q.totalAmountTo f2
    let f4 := dateSpreadGte "createdAt" q.orderDateFrom f3
    let f5 := dateSpreadLteEod "createdAt" q.orderDateTo f4
    match stepSearchP1 q.search with
    | .error m => .badRequest m
    | .ok conds =>
      .ok
        { filter := f5
          searchOr := conds
          sort := resolveSort ordersSortAllowedV1 (q.sortField.getD "createdAt")
            (q.sortOrder.getD "desc")
          skip := ((pageNum - 1) * limitNum).toNat
          limit := limitNum.toNat }

/-- getOrdersCurrentUser, first order.ts variant (order.ts lines 134 to 186):
the filter always carries customer = userId, and any nonempty search string
is rejected outright. -/
def getOrdersCurrentUser_v1 (userId : Nat) (q : CurrentUserQuery) :
    HandlerResult QueryDescriptor :=
  let pageNum := normalizePage jsParseInt10 q.page
  let limitNum := normalizeLimit jsParseInt10 10 5 q.limit
  let f : MongoFilter := [("customer", .oid userId)]
  let proceed : HandlerResult QueryDescriptor :=
    .ok
      { filter := f
        sort := [("createdAt", -1)]
        skip := ((pageNum - 1) * limitNum).toNat
        limit := limitNum.toNat }
  match q.search with
  | none => proceed
  | some s => if s.isEmpty then proceed else .badRequest searchDisabledMsg

/-- A product document, as far as the part_001 current-user search needs it. -/
structure ProductDoc where
  id : Nat
  title : String
deriving DecidableEq, Repr

/-- getOrdersCurrentUser, part_001 variant (part_001 lines 197 to 267): the
filter starts from customer = userId; a numeric search adds orderNumber, a
textual one resolves matching product ids (at most 100) into a products $in
condition. -/
def getOrdersCurrentUser_p1 (userId : Nat) (productStore : List ProductDoc)
    (q : CurrentUserQuery) : HandlerResult QueryDescriptor :=
  let pageNum := normalizePage jsParseInt10 q.page
  let limitNum := normalizeLimit jsParseInt10 10 5 q.limit
  let f : MongoFilter := [("customer", .oid userId)]
  let finish : MongoFilter → HandlerResult QueryDescriptor := fun f' =>
    .ok
      { filter := f'
        sort := [("createdAt", -1)]
        skip := ((pageNum - 1) * limitNum).toNat
        limit := limitNum.toNat }
  match q.search with
  | none => finish f
  | some s =>
    if s.isEmpty then finish f
    else
      let safe := escapeStringRegexp s
      if safe.length > 100 then .badRequest searchTooLongMsg
      else
        match jsToNumber s with
        | some n =>
          if n.posB then finish (setKey f "orderNumber" (.num n))
          else
            let ids := ((productStore.filter (fun p => regexIMatch s p.title)).map
              (fun p => p.id)).take 100
            finish (setKey f "products" (.inOids ids))
        | none =>
          let ids := ((productStore.filter (fun p => regexIMatch s p.title)).map
            (fun p => p.id)).take 100
          finish (setKey f "products" (.inOids ids))

/-- getCustomers (customers.ts lines 19 to 205): admin gate, limit capped at
100, spread date ranges with end-of-day upper bounds, spread nonnegative
numeric ranges, name and email regex search with a length cap only. -/
def getCustomers (user : Option UserCtx) (q : CustomersQuery) :
    HandlerResult QueryDescriptor :=
  if !adminCheck user then .forbidden adminRequiredMsg
  else
    let pageNum := normalizePage jsParseIntDefault q.page
    let limitNum := normalizeLimit jsParseIntDefault 100 10 q.limit
    let f1 := dateSpreadGte "createdAt" q.registrationDateFrom []
    let f2 := dateSpreadLteEod "createdAt" q.registrationDateTo f1
    let f3 := dateSpreadGte "lastOrderDate" q.lastOrderDateFrom f2
    let f4 := dateSpreadLteEod "lastOrderDate" q.lastOrderDateTo f3
    let f5 := numSpreadGte "totalAmount" q.totalAmountFrom f4
    let f6 := numSpreadLte "totalAmount" q.totalAmountTo f5
    let f7 := numSpreadGte "orderCount" q.orderCountFrom f6
    let f8 := numSpreadLte "orderCount" q.orderCountTo f7
    match stepSearchCustomers q.search f8 with
    | .error m => .badRequest m
    | .ok f9 =>
      .ok
        { filter := f9
          sort := resolveSort customersSortAllowed (q.sortField.getD "createdAt")
            (q.sortOrder.getD "desc")
          skip := ((pageNum - 1) * limitNum).toNat
          limit := limitNum.toNat }

/-- Response envelope of getProducts. -/
structure ProductsResponse (α : Type) where
  items : List α
  totalProducts : Nat
  totalPages : Nat
  currentPage : Int
  pageSize : Int
deriving Repr

/-- getProducts (products.ts lines 42 to 69): pagination over the unfiltered
collection, a separate count of the whole collection, and
totalPages = Math.ceil(total / limitNum). -/
def getProducts {α : Type} (store : List α) (page limit : Option String) :
    ProductsResponse α :=
  let pageNum := normalizePage jsParseIntDefault page
  let limitNum := normalizeLimit jsParseIntDefault 100 5 limit
  let skip := ((pageNum - 1) * limitNum).toNat
  { items := (store.drop skip).take limitNum.toNat
    totalProducts := store.length
    totalPages := ceilDiv store.length limitNum.toNat
    currentPage := pageNum
    pageSize := limitNum }

/-- Response envelope of the admin orders listing. -/
structure OrdersPage (α : Type) where
  orders : List α
  totalOrders : Nat
  totalPages : Nat
  currentPage : Int
  pageSize : Nat
deriving DecidableEq, Repr

/-- The List Query Executor of the first order.ts getOrders (lines 100 to
128): the single bounded read Order.find(filters).sort(...).skip(...)
.limit(...) over the store, a separate Order.countDocuments(filters) on the
same filter object with no skip and limit, and
totalPages = Math.ceil(totalOrders / limitNum).  The document store's
predicate evaluation and sorting are external collaborators and enter as the
parameters matchesF and sortBy. -/
def getOrders_v1_exec {α : Type} (store : List α)
    (matchesF : MongoFilter → α → Bool)
    (sortBy : List (String × Int) → List α → List α)
    (u : Option UserCtx) (q : OrdersQuery) : HandlerResult (OrdersPage α) :=
  match getOrders_v1 u q with
  | .forbidden m => .forbidden m
  | .badRequest m => .badRequest m
  | .ok d =>
    let filtered := store.filter (matchesF d.filter)
    .ok
      { orders := ((sortBy d.sort filtered).drop d.skip).take d.limit
        totalOrders := filtered.length
        totalPages := ceilDiv filtered.length d.limit
        currentPage := normalizePage jsParseInt10 q.page
        pageSize := d.limit }

/-! ## updateCurrentUser (second half of products.ts, lines 435 to 474) -/

/-- The stored user document, with the fields the claims speak about. -/
structure StoredUser where
  id : Nat
  name : String
  email : String
  password : String
  roles : List String
  tokens : List String
  phone : String
deriving DecidableEq, Repr

/-- A profile-update request body: besides the two allow-listed fields it may
try to smuggle roles, password or tokens. -/
structure UpdateBody where
  name : Option String := none
  email : Option String := none
  roles : Option (List String) := none
  password : Option String := none
  tokens : Option (List String) := none
deriving Repr

/-- validator.escape: HTML-significant characters become entities. -/
def validatorEscapeChar (c : Char) : List Char :=
  if c = '&' then ['&', 'a', 'm', 'p', ';']
  else if c = '"' then ['&', 'q', 'u', 'o', 't', ';']
  else if c = '\'' then ['&', '#', 'x', '2', '7', ';']
  else if c = '<' then ['&', 'l', 't', ';']
  else if c = '>' then ['&', 'g', 't', ';']
  else if c = '/' then ['&', '#', 'x', '2', 'F', ';']
  else if c = '\\' then ['&', '#', 'x', '5', 'C', ';']
  else if c = '`' then ['&', '#', '9', '6', ';']
  else [c]

def validatorEscape (s : String) : String :=
  String.mk (s.toList.foldr (fun c acc => validatorEscapeChar c ++ acc) [])

/-- String.prototype.trim. -/
def trimJs (s : String) : String := String.mk (trimWsChars s.toList)

/-- The sanitized update object built from the allow-listed fields name and
email; a sanitized email failing the email check aborts with a 400.  The
email validator itself is an external library, passed as a parameter. -/
def buildUpdateData (isEmail : String → Bool) (b : UpdateBody) :
    Except String (Option String × Option String) :=
  let nameUpd := b.name.map (fun s => trimJs (validatorEscape s))
  match b.email with
  | none => .ok (nameUpd, none)
  | some e =>
    let e' := trimJs (validatorEscape e)
    if isEmail e' then .ok (nameUpd, some e') else .error "Некорректный email"

/-- updateCurrentUser: findByIdAndUpdate with the update object above, which
sets exactly the keys present in it. -/
def updateCurrentUser (isEmail : String → Bool) (b : UpdateBody) (u : StoredUser) :
    HandlerResult StoredUser :=
  match buildUpdateData isEmail b with
  | .error m => .badRequest m
  | .ok (n?, e?) => .ok { u with name := n?.getD u.name, email := e?.getD u.email }

/-! ## The per-entity allow-lists and entry validity, as the spec states them -/

/-- The filter field names the admin orders listing can ever populate. -/
def orderFilterAllowed : List String :=
  ["status", "totalAmount", "createdAt", "orderNumber"]

/-- The filter field names the customers listing can ever populate. -/
def customerFilterAllowed : List String :=
  ["createdAt", "lastOrderDate", "totalAmount", "orderCount", "$or"]

/-- The fields the customers search $or may target. -/
def customerSearchFields : List String := ["name", "email"]

/-- A validated orders filter entry: an exact allowed status, nonnegative
numeric range bounds, structurally valid date bounds, or a positive order
number. -/
def OrderEntryOK (e : String × MongoVal) : Bool :=
  if e.1 = "status" then
    match e.2 with
    | .str s => allowedStatuses.contains s
    | _ => false
  else if e.1 = "totalAmount" then
    match e.2 with
    | .numRange lo hi => optNonneg lo && optNonneg hi
    | _ => false
  else if e.1 = "createdAt" then
    match e.2 with
    | .dateRange lo hi => optValidDate lo && optValidDate hi
    | _ => false
  else if e.1 = "orderNumber" then
    match e.2 with
    | .num n => n.posB
    | _ => false
  else false

/-- A validated customers filter entry: valid date range bounds, nonnegative
numeric range bounds, or an $or of literal-escaped, length-capped regexes on
the two search fields. -/
def CustomerEntryOK (e : String × MongoVal) : Bool :=
  if e.1 = "createdAt" ∨ e.1 = "lastOrderDate" then
    match e.2 with
    | .dateRange lo hi => optValidDate lo && optValidDate hi
    | _ => false
  else if e.1 = "totalAmount" ∨ e.1 = "orderCount" then
    match e.2 with
    | .numRange lo hi => optNonneg lo && optNonneg hi
    | _ => false
  else if e.1 = "$or" then
    match e.2 with
    | .orList cs =>
      cs.all (fun c =>
        match c with
        | .fieldRegex fld p =>
          customerSearchFields.contains fld && decide (p.length ≤ 100) &&
            literalEscapedChars p.toList
        | _ => false)
    | _ => false
  else false

/-- Every date range bound of this entry is structurally valid. -/
def dateEntryValid (e : String × MongoVal) : Bool :=
  match e.2 with
  | .dateRange lo hi => optValidDate lo && optValidDate hi
  | _ => true

/-- The date a truthy raw parameter contributes, if any. -/
def optTruthyDateParse (o : Option String) : Option JsDate :=
  match o with
  | none => none
  | some s => if s.isEmpty then none else jsParseDate s

/-- A raw numeric-bound parameter that contributes no bound in the strict
(first-variant and customers) builders: absent handled separately; here, an
empty string, a parse failure, or a negative parse. -/
def noNumContrib (o : Option String) : Prop :=
  ∀ s, o = some s → s.isEmpty = true ∨ jsToNumber s = none ∨
    ∃ a, jsToNumber s = some a ∧ a.nonneg = false

/-! ## Basic lemmas on the filter object -/

theorem mem_setKey {f : MongoFilter} {k : String} {v : MongoVal} :
    ∀ e ∈ setKey f k v, e = (k, v) ∨ e ∈ f := by
  induction f with
  | nil => intro e he; simp [setKey] at he; simp [he]
  | cons hd tl ih =>
    intro e he
    rw [setKey] at he
    split at he
    · rcases List.mem_cons.mp he with h | h
      · exact Or.inl h
      · exact Or.inr (List.mem_cons_of_mem _ h)
    · rcases List.mem_cons.mp he with h | h
      · exact Or.inr (h ▸ List.mem_cons_self _ _)
      · rcases ih e h with h' | h'
        · exact Or.inl h'
        · exact Or.inr (List.mem_cons_of_mem _ h')

theorem entries_setKey {P : String × MongoVal → Prop} {f : MongoFilter}
    {k : String} {v : MongoVal} (hf : ∀ e ∈ f, P e) (hkv : P (k, v)) :
    ∀ e ∈ setKey f k v, P e := by
  intro e he
  rcases mem_setKey e he with h | h
  · exact h ▸ hkv
  · exact hf e h

theorem getKey_setKey_self (f : MongoFilter) (k : String) (v : MongoVal) :
    getKey (setKey f k v) k = some v := by
  induction f with
  | nil => simp [setKey, getKey]
  | cons hd tl ih =>
    rw [setKey]
    split
    · simp [getKey]
    · rw [getKey]
      split
      · simp_all
      · exact ih

theorem getKey_setKey_ne {k k' : String} (h : k' ≠ k) (f : MongoFilter)
    (v : MongoVal) : getKey (setKey f k v) k' = getKey f k' := by
  induction f with
  | nil => simp [setKey, getKey, Ne.symm h]
  | cons hd tl ih =>
    rw [setKey]
    split
    · rename_i heq
      rw [getKey, getKey, heq]
      simp [Ne.symm h]
    · rw [getKey, getKey]
      split
      · rfl
      · exact ih

theorem getKey_mem {f : MongoFilter} {k : String} {v : MongoVal}
    (h : getKey f k = some v) : (k, v) ∈ f := by
  induction f with
  | nil => simp [getKey] at h
  | cons hd tl ih =>
    rw [getKey] at h
    split at h
    · rename_i heq
      obtain ⟨rfl⟩ := Option.some_injective _ h
      exact heq ▸ List.mem_cons_self _ _
    · exact List.mem_cons_of_mem _ (ih h)

/-! ## Lemmas on the modelled JS primitives -/

theorem jsParseDate_valid {s : String} {d : JsDate} (h : jsParseDate s = some d) :
    d.valid = true := by
  unfold jsParseDate at h
  split at h
  · split at h
    · split at h
      · rename_i hrange
        obtain ⟨rfl⟩ := Option.some_injective _ h
        simp only [JsDate.valid]
        simp_all
      · exact absurd h (by simp)
    · exact absurd h (by simp)
  · exact absurd h (by simp)

theorem endOfDay_valid {d : JsDate} (h : d.valid = true) :
    (endOfDay d).valid = true := by
  simp only [JsDate.valid, endOfDay] at h ⊢
  simp_all

theorem literal_cons_escaped (c : Char) (X : List Char) :
    literalEscapedChars ('\\' :: c :: X) = literalEscapedChars X := by
  rw [literalEscapedChars.eq_def]
  simp

theorem literal_cons_plain {c : Char} (h1 : ¬ c = '\\')
    (h2 : regexSpecials.contains c = false) (X : List Char) :
    literalEscapedChars (c :: X) = literalEscapedChars X := by
  have h2m : ¬ c ∈ regexSpecials := by simpa using h2
  rw [literalEscapedChars.eq_def]
  simp [h1, h2, h2m]

theorem escapeChars_literal (cs : List Char) :
    literalEscapedChars (escapeChars cs) = true := by
  induction cs with
  | nil => rfl
  | cons c rest ih =>
    show literalEscapedChars (escapeChar c ++ escapeChars rest) = true
    unfold escapeChar
    split
    · rename_i hsp
      rw [List.cons_append, List.cons_append, List.nil_append, literal_cons_escaped]
      exact ih
    · split
      · rw [List.cons_append, List.cons_append, List.cons_append, List.cons_append,
          List.nil_append, literal_cons_escaped,
          literal_cons_plain (by decide) (by decide),
          literal_cons_plain (by decide) (by decide)]
        exact ih
      · rename_i hsp hdash
        rw [List.cons_append, List.nil_append]
        have hne : ¬ c = '\\' := by
          intro hc
          exact hsp (by rw [hc]; decide)
        rw [literal_cons_plain hne (by simpa using hsp)]
        exact ih

theorem escapeStringRegexp_literal (s : String) :
    literalEscapedChars (escapeStringRegexp s).toList = true := by
  simpa [escapeStringRegexp] using escapeChars_literal s.toList

theorem escapeStringRegexp_literal_data (s : String) :
    literalEscapedChars (escapeStringRegexp s).data = true :=
  escapeStringRegexp_literal s

theorem JsNum.max0_nonneg (a : JsNum) : a.max0.nonneg = true := by
  cases a with
  | fin q => simp [JsNum.max0, JsNum.nonneg, le_max_left]
  | posInf => rfl
  | negInf => rfl

theorem denyListed_ne_empty {s : String} (h : denyListed s = true) :
    s.isEmpty = false := by
  by_contra hne
  rw [Bool.not_eq_false] at hne
  have hs : s = "" := (String.isEmpty_iff s).mp hne
  subst hs
  exact absurd h (by decide)

theorem escape_empty_of_isEmpty {s : String} (h : s.isEmpty = true) :
    (escapeStringRegexp s).length = 0 := by
  have hs : s = "" := (String.isEmpty_iff s).mp h
  subst hs
  rfl

/-! ## Validity projections and range-spread helpers -/

theorem orderOK_numNonneg {e : String × MongoVal} (h : OrderEntryOK e = true) :
    numEntryNonneg e = true := by
  obtain ⟨k, v⟩ := e
  unfold OrderEntryOK at h
  split_ifs at h <;> cases v <;> simp_all [numEntryNonneg]

theorem custOK_numNonneg {e : String × MongoVal} (h : CustomerEntryOK e = true) :
    numEntryNonneg e = true := by
  obtain ⟨k, v⟩ := e
  unfold CustomerEntryOK at h
  split_ifs at h <;> cases v <;> simp_all [numEntryNonneg]

theorem custOK_dateValid {e : String × MongoVal} (h : CustomerEntryOK e = true) :
    dateEntryValid e = true := by
  obtain ⟨k, v⟩ := e
  unfold CustomerEntryOK at h
  split_ifs at h <;> cases v <;> simp_all [dateEntryValid]

theorem orderOK_key_allowed {e : String × MongoVal} (h : OrderEntryOK e = true) :
    e.1 ∈ orderFilterAllowed := by
  obtain ⟨k, v⟩ := e
  unfold OrderEntryOK at h
  split_ifs at h <;> simp_all [orderFilterAllowed]

theorem custOK_key_allowed {e : String × MongoVal} (h : CustomerEntryOK e = true) :
    e.1 ∈ customerFilterAllowed := by
  obtain ⟨k, v⟩ := e
  unfold CustomerEntryOK at h
  split_ifs at h with h1 h2 h3
  · rcases h1 with rfl | rfl <;> simp [customerFilterAllowed]
  · rcases h2 with rfl | rfl <;> simp [customerFilterAllowed]
  · subst h3
    simp [customerFilterAllowed]

theorem numRange_sides_nonneg {f : MongoFilter}
    (hf : ∀ e ∈ f, numEntryNonneg e = true) (fld : String) :
    optNonneg (getNumRange f fld).1 = true ∧ optNonneg (getNumRange f fld).2 = true := by
  unfold getNumRange
  cases hk : getKey f fld with
  | none => exact ⟨rfl, rfl⟩
  | some v =>
    cases v with
    | numRange lo hi =>
      have hm := hf _ (getKey_mem hk)
      simp only [numEntryNonneg, Bool.and_eq_true] at hm
      exact ⟨hm.1, hm.2⟩
    | str s => exact ⟨rfl, rfl⟩
    | num n => exact ⟨rfl, rfl⟩
    | date d => exact ⟨rfl, rfl⟩
    | oid i => exact ⟨rfl, rfl⟩
    | dateRange lo hi => exact ⟨rfl, rfl⟩
    | orList cs => exact ⟨rfl, rfl⟩
    | inOids ids => exact ⟨rfl, rfl⟩

theorem dateRange_sides_valid {f : MongoFilter}
    (hf : ∀ e ∈ f, dateEntryValid e = true) (fld : String) :
    optValidDate (getDateRange f fld).1 = true ∧
      optValidDate (getDateRange f fld).2 = true := by
  unfold getDateRange
  cases hk : getKey f fld with
  | none => exact ⟨rfl, rfl⟩
  | some v =>
    cases v with
    | dateRange lo hi =>
      have hm := hf _ (getKey_mem hk)
      simp only [dateEntryValid, Bool.and_eq_true] at hm
      exact ⟨hm.1, hm.2⟩
    | str s => exact ⟨rfl, rfl⟩
    | num n => exact ⟨rfl, rfl⟩
    | date d => exact ⟨rfl, rfl⟩
    | oid i => exact ⟨rfl, rfl⟩
    | numRange lo hi => exact ⟨rfl, rfl⟩
    | orList cs => exact ⟨rfl, rfl⟩
    | inOids ids => exact ⟨rfl, rfl⟩

theorem optValidDate_some (d : JsDate) : optValidDate (some d) = d.valid := rfl

theorem optValidDate_none : optValidDate none = true := rfl

theorem optNonneg_some (a : JsNum) : optNonneg (some a) = a.nonneg := rfl

theorem optNonneg_none : optNonneg none = true := rfl

/-! ## Preservation of entry validity through the first-variant builder steps -/

theorem ord_stepStatus {raw : Option String} {f : MongoFilter}
    (hf : ∀ e ∈ f, OrderEntryOK e = true) :
    ∀ e ∈ stepStatus raw f, OrderEntryOK e = true := by
  unfold stepStatus
  cases raw with
  | none => exact hf
  | some s =>
    dsimp only
    by_cases hc : (!s.isEmpty && allowedStatuses.contains s) = true
    · rw [if_pos hc]
      apply entries_setKey hf
      simp only [Bool.and_eq_true] at hc
      simpa [OrderEntryOK] using hc.2
    · rw [if_neg hc]
      exact hf

theorem ord_numGte {raw : Option String} {f : MongoFilter}
    (hf : ∀ e ∈ f, OrderEntryOK e = true) :
    ∀ e ∈ numOnlyGteV1 "totalAmount" raw f, OrderEntryOK e = true := by
  unfold numOnlyGteV1
  cases raw with
  | none => exact hf
  | some s =>
    dsimp only
    by_cases he : s.isEmpty = true
    · rw [if_pos he]
      exact hf
    · rw [if_neg he]
      cases heqn : jsToNumber s with
      | none => exact hf
      | some a =>
        dsimp only
        by_cases hnn : a.nonneg = true
        · rw [if_pos hnn]
          apply entries_setKey hf
          simp [OrderEntryOK, optNonneg, hnn]
        · rw [if_neg hnn]
          exact hf

theorem ord_numLte {raw : Option String} {f : MongoFilter}
    (hf : ∀ e ∈ f, OrderEntryOK e = true) :
    ∀ e ∈ numOnlyLteV1 "totalAmount" raw f, OrderEntryOK e = true := by
  unfold numOnlyLteV1
  cases raw with
  | none => exact hf
  | some s =>
    dsimp only
    by_cases he : s.isEmpty = true
    · rw [if_pos he]
      exact hf
    · rw [if_neg he]
      cases heqn : jsToNumber s with
      | none => exact hf
      | some a =>
        dsimp only
        by_cases hnn : a.nonneg = true
        · rw [if_pos hnn]
          apply entries_setKey hf
          simp [OrderEntryOK, optNonneg, hnn]
        · rw [if_neg hnn]
          exact hf

theorem ord_dateGte {raw : Option String} {f : MongoFilter}
    (hf : ∀ e ∈ f, OrderEntryOK e = true) :
    ∀ e ∈ dateOnlyGteV1 raw f, OrderEntryOK e = true := by
  unfold dateOnlyGteV1
  cases raw with
  | none => exact hf
  | some s =>
    dsimp only
    by_cases he : s.isEmpty = true
    · rw [if_pos he]
      exact hf
    · rw [if_neg he]
      cases heqd : jsParseDate s with
      | none => exact hf
      | some d =>
        dsimp only
        apply entries_setKey hf
        simp [OrderEntryOK, optValidDate, jsParseDate_valid heqd]

theorem ord_dateLte {raw : Option String} {f : MongoFilter}
    (hf : ∀ e ∈ f, OrderEntryOK e = true) :
    ∀ e ∈ dateOnlyLteEodV1 raw f, OrderEntryOK e = true := by
  unfold dateOnlyLteEodV1
  cases raw with
  | none => exact hf
  | some s =>
    dsimp only
    by_cases he : s.isEmpty = true
    · rw [if_pos he]
      exact hf
    · rw [if_neg he]
      cases heqd : jsParseDate s with
      | none => exact hf
      | some d =>
        dsimp only
        apply entries_setKey hf
        simp [OrderEntryOK, optValidDate, endOfDay_valid (jsParseDate_valid heqd)]

theorem ord_search {raw : Option String} {f f' : MongoFilter}
    (h : stepSearchV1 raw f = .ok f') (hf : ∀ e ∈ f, OrderEntryOK e = true) :
    ∀ e ∈ f', OrderEntryOK e = true := by
  unfold stepSearchV1 at h
  cases raw with
  | none =>
    injection h with h
    exact h ▸ hf
  | some s =>
    dsimp only at h
    by_cases he : s.isEmpty = true
    · rw [if_pos he] at h
      injection h with h
      exact h ▸ hf
    · rw [if_neg he] at h
      by_cases hlen : (escapeStringRegexp s).length > 100
      · rw [if_pos hlen] at h
        exact absurd h (by simp)
      · rw [if_neg hlen] at h
        cases heqn : jsToNumber s with
        | none =>
          rw [heqn] at h
          injection h with h
          exact h ▸ hf
        | some n =>
          rw [heqn] at h
          dsimp only at h
          by_cases hpos : n.posB = true
          · rw [if_pos hpos] at h
            injection h with h
            subst h
            apply entries_setKey hf
            simp [OrderEntryOK, hpos]
          · rw [if_neg hpos] at h
            injection h with h
            exact h ▸ hf

/-! ## Preservation through the customers builder steps -/

theorem cust_dateGte {fld : String} {raw : Option String} {f : MongoFilter}
    (hfld : fld = "createdAt" ∨ fld = "lastOrderDate")
    (hf : ∀ e ∈ f, CustomerEntryOK e = true) :
    ∀ e ∈ dateSpreadGte fld raw f, CustomerEntryOK e = true := by
  unfold dateSpreadGte
  cases raw with
  | none => exact hf
  | some s =>
    dsimp only
    by_cases he : s.isEmpty = true
    · rw [if_pos he]
      exact hf
    · rw [if_neg he]
      cases heqd : jsParseDate s with
      | none => exact hf
      | some d =>
        dsimp only
        have hsides := dateRange_sides_valid (fun e he => custOK_dateValid (hf e he)) fld
        apply entries_setKey hf
        rcases hfld with rfl | rfl <;>
          simp [CustomerEntryOK, optValidDate_some, optValidDate_none,
            jsParseDate_valid heqd, hsides.2]

theorem cust_dateLte {fld : String} {raw : Option String} {f : MongoFilter}
    (hfld : fld = "createdAt" ∨ fld = "lastOrderDate")
    (hf : ∀ e ∈ f, CustomerEntryOK e = true) :
    ∀ e ∈ dateSpreadLteEod fld raw f, CustomerEntryOK e = true := by
  unfold dateSpreadLteEod
  cases raw with
  | none => exact hf
  | some s =>
    dsimp only
    by_cases he : s.isEmpty = true
    · rw [if_pos he]
      exact hf
    · rw [if_neg he]
      cases heqd : jsParseDate s with
      | none => exact hf
      | some d =>
        dsimp only
        have hsides := dateRange_sides_valid (fun e he => custOK_dateValid (hf e he)) fld
        apply entries_setKey hf
        rcases hfld with rfl | rfl <;>
          simp [CustomerEntryOK, optValidDate_some, optValidDate_none,
            endOfDay_valid (jsParseDate_valid heqd), hsides.1]

theorem cust_numGte {fld : String} {raw : Option String} {f : MongoFilter}
    (hfld : fld = "totalAmount" ∨ fld = "orderCount")
    (hf : ∀ e ∈ f, CustomerEntryOK e = true) :
    ∀ e ∈ numSpreadGte fld raw f, CustomerEntryOK e = true := by
  unfold numSpreadGte
  cases raw with
  | none => exact hf
  | some s =>
    dsimp only
    by_cases he : s.isEmpty = true
    · rw [if_pos he]
      exact hf
    · rw [if_neg he]
      cases heqn : jsToNumber s with
      | none => exact hf
      | some a =>
        dsimp only
        by_cases hnn : a.nonneg = true
        · rw [if_pos hnn]
          have hsides := numRange_sides_nonneg (fun e he => custOK_numNonneg (hf e he)) fld
          apply entries_setKey hf
          rcases hfld with rfl | rfl <;>
            simp [CustomerEntryOK, optNonneg_some, optNonneg_none, hnn, hsides.2]
        · rw [if_neg hnn]
          exact hf

theorem cust_numLte {fld : String} {raw : Option String} {f : MongoFilter}
    (hfld : fld = "totalAmount" ∨ fld = "orderCount")
    (hf : ∀ e ∈ f, CustomerEntryOK e = true) :
    ∀ e ∈ numSpreadLte fld raw f, CustomerEntryOK e = true := by
  unfold numSpreadLte
  cases raw with
  | none => exact hf
  | some s =>
    dsimp only
    by_cases he : s.isEmpty = true
    · rw [if_pos he]
      exact hf
    · rw [if_neg he]
      cases heqn : jsToNumber s with
      | none => exact hf
      | some a =>
        dsimp only
        by_cases hnn : a.nonneg = true
        · rw [if_pos hnn]
          have hsides := numRange_sides_nonneg (fun e he => custOK_numNonneg (hf e he)) fld
          apply entries_setKey hf
          rcases hfld with rfl | rfl <;>
            simp [CustomerEntryOK, optNonneg_some, optNonneg_none, hnn, hsides.1]
        · rw [if_neg hnn]
          exact hf

theorem cust_search {raw : Option String} {f f' : MongoFilter}
    (h : stepSearchCustomers raw f = .ok f')
    (hf : ∀ e ∈ f, CustomerEntryOK e = true) :
    ∀ e ∈ f', CustomerEntryOK e = true := by
  unfold stepSearchCustomers at h
  cases raw with
  | none =>
    injection h with h
    exact h ▸ hf
  | some s =>
    dsimp only at h
    by_cases he : s.isEmpty = true
    · rw [if_pos he] at h
      injection h with h
      exact h ▸ hf
    · rw [if_neg he] at h
      by_cases hlen : (escapeStringRegexp s).length > 100
      · rw [if_pos hlen] at h
        exact absurd h (by simp)
      · rw [if_neg hlen] at h
        injection h with h
        subst h
        apply entries_setKey hf
        have hle : (escapeStringRegexp s).length ≤ 100 := Nat.not_lt.mp hlen
        simp [CustomerEntryOK, customerSearchFields, hle, escapeStringRegexp_literal,
          escapeStringRegexp_literal_data]

/-! ## Preservation of bound nonnegativity through the second-variant steps -/

theorem v2nn_stepStatus {raw : Option String} {f : MongoFilter}
    (hf : ∀ e ∈ f, numEntryNonneg e = true) :
    ∀ e ∈ stepStatus raw f, numEntryNonneg e = true := by
  unfold stepStatus
  cases raw with
  | none => exact hf
  | some s =>
    dsimp only
    by_cases hc : (!s.isEmpty && allowedStatuses.contains s) = true
    · rw [if_pos hc]
      apply entries_setKey hf
      simp [numEntryNonneg]
    · rw [if_neg hc]
      exact hf

theorem v2nn_clampGte {fld : String} {raw : Option String} {f : MongoFilter}
    (hf : ∀ e ∈ f, numEntryNonneg e = true) :
    ∀ e ∈ numClampGte fld raw f, numEntryNonneg e = true := by
  unfold numClampGte
  cases raw with
  | none => exact hf
  | some s =>
    dsimp only
    by_cases he : s.isEmpty = true
    · rw [if_pos he]
      exact hf
    · rw [if_neg he]
      cases heqn : jsToNumber s with
      | none => exact hf
      | some a =>
        dsimp only
        have hsides := numRange_sides_nonneg hf fld
        apply entries_setKey hf
        simp [numEntryNonneg, optNonneg_some, optNonneg_none, JsNum.max0_nonneg, hsides.2]

theorem v2nn_clampLte {fld : String} {raw : Option String} {f : MongoFilter}
    (hf : ∀ e ∈ f, numEntryNonneg e = true) :
    ∀ e ∈ numClampLte fld raw f, numEntryNonneg e = true := by
  unfold numClampLte
  cases raw with
  | none => exact hf
  | some s =>
    dsimp only
    by_cases he : s.isEmpty = true
    · rw [if_pos he]
      exact hf
    · rw [if_neg he]
      cases heqn : jsToNumber s with
      | none => exact hf
      | some a =>
        dsimp only
        have hsides := numRange_sides_nonneg hf fld
        apply entries_setKey hf
        simp [numEntryNonneg, optNonneg_some, optNonneg_none, JsNum.max0_nonneg, hsides.1]

theorem v2nn_dateGte {fld : String} {raw : Option String} {f : MongoFilter}
    (hf : ∀ e ∈ f, numEntryNonneg e = true) :
    ∀ e ∈ dateSpreadGte fld raw f, numEntryNonneg e = true := by
  unfold dateSpreadGte
  cases raw with
  | none => exact hf
  | some s =>
    dsimp only
    by_cases he : s.isEmpty = true
    · rw [if_pos he]
      exact hf
    · rw [if_neg he]
      cases heqd : jsParseDate s with
      | none => exact hf
      | some d =>
        dsimp only
        apply entries_setKey hf
        simp [numEntryNonneg]

theorem v2nn_dateLteRaw {fld : String} {raw : Option String} {f : MongoFilter}
    (hf : ∀ e ∈ f, numEntryNonneg e = true) :
    ∀ e ∈ dateSpreadLteRaw fld raw f, numEntryNonneg e = true := by
  unfold dateSpreadLteRaw
  cases raw with
  | none => exact hf
  | some s =>
    dsimp only
    by_cases he : s.isEmpty = true
    · rw [if_pos he]
      exact hf
    · rw [if_neg he]
      cases heqd : jsParseDate s with
      | none => exact hf
      | some d =>
        dsimp only
        apply entries_setKey hf
        simp [numEntryNonneg]

theorem v2nn_search {raw : Option String} {f f' : MongoFilter}
    (h : stepSearchV2 raw f = .ok f') (hf : ∀ e ∈ f, numEntryNonneg e = true) :
    ∀ e ∈ f', numEntryNonneg e = true := by
  unfold stepSearchV2 at h
  cases raw with
  | none =>
    injection h with h
    exact h ▸ hf
  | some s =>
    dsimp only at h
    by_cases he : s.isEmpty = true
    · rw [if_pos he] at h
      injection h with h
      exact h ▸ hf
    · rw [if_neg he] at h
      by_cases hlen : (escapeStringRegexp s).length > 100
      · rw [if_pos hlen] at h
        exact absurd h (by simp)
      · rw [if_neg hlen] at h
        injection h with h
        subst h
        apply entries_setKey hf
        simp [numEntryNonneg]

/-! ## Handler-level filter facts -/

theorem getOrders_v1_filter_ok {u : Option UserCtx} {q : OrdersQuery}
    {d : QueryDescriptor} (h : getOrders_v1 u q = .ok d) :
    ∀ e ∈ d.filter, OrderEntryOK e = true := by
  simp only [getOrders_v1] at h
  split at h
  · exact absurd h (by simp)
  · split at h
    · exact absurd h (by simp)
    · rename_i f6 heq
      injection h with h
      subst h
      exact ord_search heq
        (ord_dateLte (ord_dateGte (ord_numLte (ord_numGte (ord_stepStatus (by simp))))))

theorem getCustomers_filter_ok {u : Option UserCtx} {q : CustomersQuery}
    {d : QueryDescriptor} (h : getCustomers u q = .ok d) :
    ∀ e ∈ d.filter, CustomerEntryOK e = true := by
  simp only [getCustomers] at h
  split at h
  · exact absurd h (by simp)
  · split at h
    · exact absurd h (by simp)
    · rename_i f9 heq
      injection h with h
      subst h
      exact cust_search heq
        (cust_numLte (Or.inr rfl)
          (cust_numGte (Or.inr rfl)
            (cust_numLte (Or.inl rfl)
              (cust_numGte (Or.inl rfl)
                (cust_dateLte (Or.inr rfl)
                  (cust_dateGte (Or.inr rfl)
                    (cust_dateLte (Or.inl rfl)
                      (cust_dateGte (Or.inl rfl) (by simp)))))))))

theorem getOrders_v2_filter_nonneg {u : Option UserCtx} {q : OrdersQuery}
    {d : QueryDescriptor} (h : getOrders_v2 u q = .ok d) :
    ∀ e ∈ d.filter, numEntryNonneg e = true := by
  simp only [getOrders_v2] at h
  split at h
  · exact absurd h (by simp)
  · rename_i f6 heq
    injection h with h
    subst h
    exact v2nn_search heq
      (v2nn_dateLteRaw (v2nn_dateGte (v2nn_clampLte (v2nn_clampGte
        (v2nn_stepStatus (by simp))))))

/-! ## getKey push-through lemmas for untouched keys -/

theorem getKey_stepStatus_ne {raw : Option String} {f : MongoFilter} {k : String}
    (h : k ≠ "status") : getKey (stepStatus raw f) k = getKey f k := by
  unfold stepStatus
  cases raw with
  | none => rfl
  | some s =>
    dsimp only
    by_cases hc : (!s.isEmpty && allowedStatuses.contains s) = true
    · rw [if_pos hc, getKey_setKey_ne h]
    · rw [if_neg hc]

theorem getKey_numOnlyGteV1_ne {fld : String} {raw : Option String}
    {f : MongoFilter} {k : String} (h : k ≠ fld) :
    getKey (numOnlyGteV1 fld raw f) k = getKey f k := by
  unfold numOnlyGteV1
  cases raw with
  | none => rfl
  | some s =>
    dsimp only
    by_cases he : s.isEmpty = true
    · rw [if_pos he]
    · rw [if_neg he]
      cases jsToNumber s with
      | none => rfl
      | some a =>
        dsimp only
        by_cases hnn : a.nonneg = true
        · rw [if_pos hnn, getKey_setKey_ne h]
        · rw [if_neg hnn]

theorem getKey_numOnlyLteV1_ne {fld : String} {raw : Option String}
    {f : MongoFilter} {k : String} (h : k ≠ fld) :
    getKey (numOnlyLteV1 fld raw f) k = getKey f k := by
  unfold numOnlyLteV1
  cases raw with
  | none => rfl
  | some s =>
    dsimp only
    by_cases he : s.isEmpty = true
    · rw [if_pos he]
    · rw [if_neg he]
      cases jsToNumber s with
      | none => rfl
      | some a =>
        dsimp only
        by_cases hnn : a.nonneg = true
        · rw [if_pos hnn, getKey_setKey_ne h]
        · rw [if_neg hnn]

theorem getKey_numSpreadGte_ne {fld : String} {raw : Option String}
    {f : MongoFilter} {k : String} (h : k ≠ fld) :
    getKey (numSpreadGte fld raw f) k = getKey f k := by
  unfold numSpreadGte
  cases raw with
  | none => rfl
  | some s =>
    dsimp only
    by_cases he : s.isEmpty = true
    · rw [if_pos he]
    · rw [if_neg he]
      cases jsToNumber s with
      | none => rfl
      | some a =>
        dsimp only
        by_cases hnn : a.nonneg = true
        · rw [if_pos hnn, getKey_setKey_ne h]
        · rw [if_neg hnn]

theorem getKey_numSpreadLte_ne {fld : String} {raw : Option String}
    {f : MongoFilter} {k : String} (h : k ≠ fld) :
    getKey (numSpreadLte fld raw f) k = getKey f k := by
  unfold numSpreadLte
  cases raw with
  | none => rfl
  | some s =>
    dsimp only
    by_cases he : s.isEmpty = true
    · rw [if_pos he]
    · rw [if_neg he]
      cases jsToNumber s with
      | none => rfl
      | some a =>
        dsimp only
        by_cases hnn : a.nonneg = true
        · rw [if_pos hnn, getKey_setKey_ne h]
        · rw [if_neg hnn]

theorem getKey_numClampGte_ne {fld : String} {raw : Option String}
    {f : MongoFilter} {k : String} (h : k ≠ fld) :
    getKey (numClampGte fld raw f) k = getKey f k := by
  unfold numClampGte
  cases raw with
  | none => rfl
  | some s =>
    dsimp only
    by_cases he : s.isEmpty = true
    · rw [if_pos he]
    · rw [if_neg he]
      cases jsToNumber s with
      | none => rfl
      | some a => exact getKey_setKey_ne h _ _

theorem getKey_numClampLte_ne {fld : String} {raw : Option String}
    {f : MongoFilter} {k : String} (h : k ≠ fld) :
    getKey (numClampLte fld raw f) k = getKey f k := by
  unfold numClampLte
  cases raw with
  | none => rfl
  | some s =>
    dsimp only
    by_cases he : s.isEmpty = true
    · rw [if_pos he]
    · rw [if_neg he]
      cases jsToNumber s with
      | none => rfl
      | some a => exact getKey_setKey_ne h _ _

theorem getKey_dateOnlyGteV1_ne {raw : Option String} {f : MongoFilter}
    {k : String} (h : k ≠ "createdAt") :
    getKey (dateOnlyGteV1 raw f) k = getKey f k := by
  unfold dateOnlyGteV1
  cases raw with
  | none => rfl
  | some s =>
    dsimp only
    by_cases he : s.isEmpty = true
    · rw [if_pos he]
    · rw [if_neg he]
      cases jsParseDate s with
      | none => rfl
      | some d => exact getKey_setKey_ne h _ _

theorem getKey_dateOnlyLteEodV1_ne {raw : Option String} {f : MongoFilter}
    {k : String} (h : k ≠ "createdAt") :
    getKey (dateOnlyLteEodV1 raw f) k = getKey f k := by
  unfold dateOnlyLteEodV1
  cases raw with
  | none => rfl
  | some s =>
    dsimp only
    by_cases he : s.isEmpty = true
    · rw [if_pos he]
    · rw [if_neg he]
      cases jsParseDate s with
      | none => rfl
      | some d => exact getKey_setKey_ne h _ _

theorem getKey_dateSpreadGte_ne {fld : String} {raw : Option String}
    {f : MongoFilter} {k : String} (h : k ≠ fld) :
    getKey (dateSpreadGte fld raw f) k = getKey f k := by
  unfold dateSpreadGte
  cases raw with
  | none => rfl
  | some s =>
    dsimp only
    by_cases he : s.isEmpty = true
    · rw [if_pos he]
    · rw [if_neg he]
      cases jsParseDate s with
      | none => rfl
      | some d => exact getKey_setKey_ne h _ _

theorem getKey_dateSpreadLteEod_ne {fld : String} {raw : Option String}
    {f : MongoFilter} {k : String} (h : k ≠ fld) :
    getKey (dateSpreadLteEod fld raw f) k = getKey f k := by
  unfold dateSpreadLteEod
  cases raw with
  | none => rfl
  | some s =>
    dsimp only
    by_cases he : s.isEmpty = true
    · rw [if_pos he]
    · rw [if_neg he]
      cases jsParseDate s with
      | none => rfl
      | some d => exact getKey_setKey_ne h _ _

theorem getKey_dateSpreadLteRaw_ne {fld : String} {raw : Option String}
    {f : MongoFilter} {k : String} (h : k ≠ fld) :
    getKey (dateSpreadLteRaw fld raw f) k = getKey f k := by
  unfold dateSpreadLteRaw
  cases raw with
  | none => rfl
  | some s =>
    dsimp only
    by_cases he : s.isEmpty = true
    · rw [if_pos he]
    · rw [if_neg he]
      cases jsParseDate s with
      | none => rfl
      | some d => exact getKey_setKey_ne h _ _

theorem getKey_searchV1_ne {raw : Option String} {f f' : MongoFilter} {k : String}
    (hok : stepSearchV1 raw f = .ok f') (h : k ≠ "orderNumber") :
    getKey f' k = getKey f k := by
  unfold stepSearchV1 at hok
  cases raw with
  | none =>
    injection hok with hok
    rw [← hok]
  | some s =>
    dsimp only at hok
    by_cases he : s.isEmpty = true
    · rw [if_pos he] at hok
      injection hok with hok
      rw [← hok]
    · rw [if_neg he] at hok
      by_cases hlen : (escapeStringRegexp s).length > 100
      · rw [if_pos hlen] at hok
        exact absurd hok (by simp)
      · rw [if_neg hlen] at hok
        cases heqn : jsToNumber s with
        | none =>
          rw [heqn] at hok
          injection hok with hok
          rw [← hok]
        | some n =>
          rw [heqn] at hok
          dsimp only at hok
          by_cases hpos : n.posB = true
          · rw [if_pos hpos] at hok
            injection hok with hok
            rw [← hok, getKey_setKey_ne h]
          · rw [if_neg hpos] at hok
            injection hok with hok
            rw [← hok]

theorem getKey_searchCust_ne {raw : Option String} {f f' : MongoFilter} {k : String}
    (hok : stepSearchCustomers raw f = .ok f') (h : k ≠ "$or") :
    getKey f' k = getKey f k := by
  unfold stepSearchCustomers at hok
  cases raw with
  | none =>
    injection hok with hok
    rw [← hok]
  | some s =>
    dsimp only at hok
    by_cases he : s.isEmpty = true
    · rw [if_pos he] at hok
      injection hok with hok
      rw [← hok]
    · rw [if_neg he] at hok
      by_cases hlen : (escapeStringRegexp s).length > 100
      · rw [if_pos hlen] at hok
        exact absurd hok (by simp)
      · rw [if_neg hlen] at hok
        injection hok with hok
        rw [← hok, getKey_setKey_ne h]

theorem getKey_searchV2_ne {raw : Option String} {f f' : MongoFilter} {k : String}
    (hok : stepSearchV2 raw f = .ok f') (h : k ≠ "$or") :
    getKey f' k = getKey f k := by
  unfold stepSearchV2 at hok
  cases raw with
  | none =>
    injection hok with hok
    rw [← hok]
  | some s =>
    dsimp only at hok
    by_cases he : s.isEmpty = true
    · rw [if_pos he] at hok
      injection hok with hok
      rw [← hok]
    · rw [if_neg he] at hok
      by_cases hlen : (escapeStringRegexp s).length > 100
      · rw [if_pos hlen] at hok
        exact absurd hok (by simp)
      · rw [if_neg hlen] at hok
        injection hok with hok
        rw [← hok, getKey_setKey_ne h]

/-! ## Closed forms for the createdAt upper bound and omitted numeric bounds -/

theorem getKey_dateOnlyLteEodV1_eq (raw : Option String) (f : MongoFilter) :
    getKey (dateOnlyLteEodV1 raw f) "createdAt" =
      match optTruthyDateParse raw with
      | some d => some (.dateRange none (some (endOfDay d)))
      | none => getKey f "createdAt" := by
  unfold dateOnlyLteEodV1 optTruthyDateParse
  cases raw with
  | none => rfl
  | some s =>
    dsimp only
    by_cases he : s.isEmpty = true
    · rw [if_pos he, if_pos he]
    · rw [if_neg he, if_neg he]
      cases jsParseDate s with
      | none => rfl
      | some d => exact getKey_setKey_self _ _ _

theorem dateHi_dateOnlyGteV1_none (raw : Option String) (f : MongoFilter)
    (h : getKey f "createdAt" = none) :
    dateHiOf (getKey (dateOnlyGteV1 raw f) "createdAt") = none := by
  unfold dateOnlyGteV1
  cases raw with
  | none => rw [h]; rfl
  | some s =>
    dsimp only
    by_cases he : s.isEmpty = true
    · rw [if_pos he, h]
      rfl
    · rw [if_neg he]
      cases jsParseDate s with
      | none => rw [h]; rfl
      | some d =>
        rw [getKey_setKey_self]
        rfl

theorem getKey_dateSpreadLteEod_eq (fld : String) (raw : Option String)
    (f : MongoFilter) :
    getKey (dateSpreadLteEod fld raw f) fld =
      match optTruthyDateParse raw with
      | some d => some (.dateRange (getDateRange f fld).1 (some (endOfDay d)))
      | none => getKey f fld := by
  unfold dateSpreadLteEod optTruthyDateParse
  cases raw with
  | none => rfl
  | some s =>
    dsimp only
    by_cases he : s.isEmpty = true
    · rw [if_pos he, if_pos he]
    · rw [if_neg he, if_neg he]
      cases jsParseDate s with
      | none => rfl
      | some d => exact getKey_setKey_self _ _ _

theorem dateHi_dateSpreadGte_none (fld : String) (raw : Option String)
    (f : MongoFilter) (h : getKey f fld = none) :
    dateHiOf (getKey (dateSpreadGte fld raw f) fld) = none := by
  unfold dateSpreadGte
  cases raw with
  | none => rw [h]; rfl
  | some s =>
    dsimp only
    by_cases he : s.isEmpty = true
    · rw [if_pos he, h]
      rfl
    · rw [if_neg he]
      cases jsParseDate s with
      | none => rw [h]; rfl
      | some d =>
        have h2 : (getDateRange f fld).2 = none := by
          unfold getDateRange
          rw [h]
        rw [getKey_setKey_self]
        simp [dateHiOf, h2]

theorem numOnlyGteV1_skip {fld : String} {raw : Option String}
    (h : noNumContrib raw) (f : MongoFilter) : numOnlyGteV1 fld raw f = f := by
  unfold numOnlyGteV1
  cases raw with
  | none => rfl
  | some s =>
    dsimp only
    by_cases he : s.isEmpty = true
    · rw [if_pos he]
    · rw [if_neg he]
      rcases h s rfl with he' | hn | ⟨a, ha, hneg⟩
      · exact absurd he' he
      · rw [hn]
      · rw [ha]
        dsimp only
        rw [if_neg (by simp [hneg])]

theorem numOnlyLteV1_skip {fld : String} {raw : Option String}
    (h : noNumContrib raw) (f : MongoFilter) : numOnlyLteV1 fld raw f = f := by
  unfold numOnlyLteV1
  cases raw with
  | none => rfl
  | some s =>
    dsimp only
    by_cases he : s.isEmpty = true
    · rw [if_pos he]
    · rw [if_neg he]
      rcases h s rfl with he' | hn | ⟨a, ha, hneg⟩
      · exact absurd he' he
      · rw [hn]
      · rw [ha]
        dsimp only
        rw [if_neg (by simp [hneg])]

theorem numSpreadGte_skip {fld : String} {raw : Option String}
    (h : noNumContrib raw) (f : MongoFilter) : numSpreadGte fld raw f = f := by
  unfold numSpreadGte
  cases raw with
  | none => rfl
  | some s =>
    dsimp only
    by_cases he : s.isEmpty = true
    · rw [if_pos he]
    · rw [if_neg he]
      rcases h s rfl with he' | hn | ⟨a, ha, hneg⟩
      · exact absurd he' he
      · rw [hn]
      · rw [ha]
        dsimp only
        rw [if_neg (by simp [hneg])]

theorem numSpreadLte_skip {fld : String} {raw : Option String}
    (h : noNumContrib raw) (f : MongoFilter) : numSpreadLte fld raw f = f := by
  unfold numSpreadLte
  cases raw with
  | none => rfl
  | some s =>
    dsimp only
    by_cases he : s.isEmpty = true
    · rw [if_pos he]
    · rw [if_neg he]
      rcases h s rfl with he' | hn | ⟨a, ha, hneg⟩
      · exact absurd he' he
      · rw [hn]
      · rw [ha]
        dsimp only
        rw [if_neg (by simp [hneg])]

theorem getNumRange_congr {f g : MongoFilter} {k : String}
    (h : getKey f k = getKey g k) : getNumRange f k = getNumRange g k := by
  unfold getNumRange
  rw [h]

theorem getNumRange_fst_numClampLte (fld : String) (raw : Option String)
    (f : MongoFilter) :
    (getNumRange (numClampLte fld raw f) fld).1 = (getNumRange f fld).1 := by
  unfold numClampLte
  cases raw with
  | none => rfl
  | some s =>
    dsimp only
    by_cases he : s.isEmpty = true
    · rw [if_pos he]
    · rw [if_neg he]
      cases heqn : jsToNumber s with
      | none => rfl
      | some a =>
        dsimp only
        conv_lhs => rw [getNumRange, getKey_setKey_self]

theorem getNumRange_fst_numClampGte_fires {fld : String} {s : String} {a : JsNum}
    (hne : s.isEmpty = false) (hparse : jsToNumber s = some a) (f : MongoFilter) :
    (getNumRange (numClampGte fld (some s) f) fld).1 = some a.max0 := by
  unfold numClampGte
  dsimp only
  rw [if_neg (by simp [hne]), hparse]
  dsimp only
  conv_lhs => rw [getNumRange, getKey_setKey_self]

theorem getOrders_v1_skip_limit {u : Option UserCtx} {q : OrdersQuery}
    {d : QueryDescriptor} (h : getOrders_v1 u q = .ok d) :
    d.skip = ((normalizePage jsParseInt10 q.page - 1) *
      normalizeLimit jsParseInt10 10 10 q.limit).toNat ∧
    d.limit = (normalizeLimit jsParseInt10 10 10 q.limit).toNat := by
  simp only [getOrders_v1] at h
  split at h
  · exact absurd h (by simp)
  · split at h
    · exact absurd h (by simp)
    · injection h with h
      subst h
      exact ⟨rfl, rfl⟩

/-! ## Arithmetic facts about ceilDiv -/

theorem le_ceilDiv_mul (n m : Nat) (hm : 0 < m) : n ≤ ceilDiv n m * m := by
  unfold ceilDiv
  rw [Nat.mul_comm]
  have h1 := Nat.div_add_mod (n + m - 1) m
  have h2 : (n + m - 1) % m < m := Nat.mod_lt _ hm
  generalize h3 : (n + m - 1) / m = q at h1 ⊢
  generalize h4 : (n + m - 1) % m = r at h1 h2
  generalize h5 : m * q = t at h1 ⊢
  omega

theorem ceilDiv_pred_mul_lt (n m : Nat) (hm : 0 < m) (hn : 0 < n) :
    (ceilDiv n m - 1) * m < n := by
  unfold ceilDiv
  rw [Nat.sub_mul, Nat.one_mul]
  have h1 := Nat.div_add_mod (n + m - 1) m
  have h2 : (n + m - 1) % m < m := Nat.mod_lt _ hm
  generalize h3 : (n + m - 1) / m = q at h1 ⊢
  generalize h4 : (n + m - 1) % m = r at h1 h2
  rw [Nat.mul_comm] at h1
  generalize h5 : q * m = t at h1 ⊢
  omega

theorem stepSearchP1_denied {s : String} (hdeny : denyListed s = true) :
    ∃ m, stepSearchP1 (some s) = .error m := by
  unfold stepSearchP1
  have hne : s.isEmpty = false := denyListed_ne_empty hdeny
  dsimp only
  rw [if_neg (by simp [hne])]
  by_cases hlen : (escapeStringRegexp s).length > 100
  · rw [if_pos hlen]
    exact ⟨_, rfl⟩
  · rw [if_neg hlen, if_pos hdeny]
    exact ⟨_, rfl⟩

/-! ## The claims -/

/-- Claim C1: for every list request of the admin orders listing (first
variant) and of the customers listing, every field name populated in the
filter handed to the datastore is in the per-entity allow-list and carries a
validated value: an exact allowed status, a parsed nonnegative numeric bound,
a valid (end-of-day-normalized where applicable) date bound, a positive order
number, or the escaped, length-capped search regex on the two allow-listed
search fields; no other key and no unvalidated value ever appears. -/
theorem C1_filter_allowlist :
    (∀ (u : Option UserCtx) (q : OrdersQuery) (d : QueryDescriptor),
        getOrders_v1 u q = .ok d →
        ∀ e ∈ d.filter, e.1 ∈ orderFilterAllowed ∧ OrderEntryOK e = true) ∧
    (∀ (u : Option UserCtx) (q : CustomersQuery) (d : QueryDescriptor),
        getCustomers u q = .ok d →
        ∀ e ∈ d.filter, e.1 ∈ customerFilterAllowed ∧ CustomerEntryOK e = true) := by
  constructor
  · intro u q d h e he
    have hOK := getOrders_v1_filter_ok h e he
    exact ⟨orderOK_key_allowed hOK, hOK⟩
  · intro u q d h e he
    have hOK := getCustomers_filter_ok h e he
    exact ⟨custOK_key_allowed hOK, hOK⟩

theorem C1_witness :
    getOrders_v1 (some ⟨["admin"]⟩)
        { status := some "shipped", totalAmountFrom := some "100",
          orderDateTo := some "2024-08-01", search := some "42" } =
      .ok
        ⟨[("status", .str "shipped"),
          ("totalAmount", .numRange (some (.fin 100)) none),
          ("createdAt", .dateRange none (some ⟨2024, 8, 1, 23, 59, 59, 999⟩)),
          ("orderNumber", .num (.fin 42))],
         [("createdAt", -1)], 0, 10⟩ ∧
    (∀ e ∈ (⟨[("status", .str "shipped"),
          ("totalAmount", .numRange (some (.fin 100)) none),
          ("createdAt", .dateRange none (some ⟨2024, 8, 1, 23, 59, 59, 999⟩)),
          ("orderNumber", .num (.fin 42))],
         [("createdAt", -1)], 0, 10⟩ : QueryDescriptor).filter,
      e.1 ∈ orderFilterAllowed ∧ OrderEntryOK e = true) :=
  ⟨by decide,
    C1_filter_allowlist.1 (some ⟨["admin"]⟩)
      { status := some "shipped", totalAmountFrom := some "100",
        orderDateTo := some "2024-08-01", search := some "42" } _ (by decide)⟩

/-- Claim C2 (corrected): the deny-list rejection holds only in the part_001
orders listing: there, any admin list request whose search string contains a
deny-listed operator token is answered with a 400 BadRequest and no query
runs.  The customers listing applies no deny-list (see the counterexample:
search=$where is escaped and the query executes). -/
theorem C2_denylist_rejected (u : Option UserCtx) (q : OrdersQuery) (s : String)
    (hadm : adminCheck u = true) (hsearch : q.search = some s)
    (hdeny : denyListed s = true) :
    ∃ m, getOrders_p1 u q = .badRequest m := by
  obtain ⟨m, hm⟩ := stepSearchP1_denied hdeny
  refine ⟨m, ?_⟩
  simp [getOrders_p1, hadm, hsearch, hm]

theorem C2_witness :
    adminCheck (some ⟨["admin"]⟩) = true ∧ denyListed "$where" = true ∧
    ∃ m, getOrders_p1 (some ⟨["admin"]⟩) { search := some "$where" } =
      .badRequest m :=
  ⟨by decide, by decide,
    C2_denylist_rejected (some ⟨["admin"]⟩) { search := some "$where" } "$where"
      (by decide) rfl (by decide)⟩

theorem C2_counterexample :
    denyListed "$where" = true ∧
    getCustomers (some ⟨["admin"]⟩) { search := some "$where" } =
      .ok ⟨[("$or", .orList [.fieldRegex "name" "\\$where",
              .fieldRegex "email" "\\$where"])],
           [("createdAt", -1)], 0, 10⟩ :=
  ⟨by decide, by decide⟩

/-- Claim C3 (corrected): the 403 gate holds in the getOrders variants that
check the caller role in the handler (order.ts first variant and part_001):
a non-admin caller is answered 403 and no query descriptor is built.  The
second order.ts getOrders variant performs no role check at all (see the
counterexample: an unauthenticated caller gets a full query). -/
theorem C3_admin_gate (u : Option UserCtx) (q : OrdersQuery)
    (h : adminCheck u = false) :
    getOrders_v1 u q = .forbidden adminRequiredMsg ∧
    getOrders_p1 u q = .forbidden adminRequiredMsg := by
  constructor
  · simp [getOrders_v1, h]
  · simp [getOrders_p1, h]

theorem C3_witness :
    adminCheck none = false ∧
    getOrders_v1 none {} = .forbidden adminRequiredMsg ∧
    getOrders_p1 none {} = .forbidden adminRequiredMsg :=
  ⟨rfl, (C3_admin_gate none {} rfl).1, (C3_admin_gate none {} rfl).2⟩

theorem C3_counterexample :
    adminCheck none = false ∧
    getOrders_v2 none {} = .ok ⟨[], [("createdAt", -1)], 0, 10⟩ :=
  ⟨rfl, by decide⟩

/-- Claim C4: every executed current-user orders listing query (first order.ts
variant and part_001 variant) carries the mandatory equality filter
customer = requesting user identifier, whatever the other query parameters
are. -/
theorem C4_customer_scoped (userId : Nat) (q : CurrentUserQuery) :
    (∀ d, getOrdersCurrentUser_v1 userId q = .ok d →
      getKey d.filter "customer" = some (.oid userId)) ∧
    (∀ (ps : List ProductDoc) d, getOrdersCurrentUser_p1 userId ps q = .ok d →
      getKey d.filter "customer" = some (.oid userId)) := by
  constructor
  · intro d h
    simp only [getOrdersCurrentUser_v1] at h
    split at h
    · injection h with h
      subst h
      rfl
    · split at h
      · injection h with h
        subst h
        rfl
      · exact absurd h (by simp)
  · intro ps d h
    simp only [getOrdersCurrentUser_p1] at h
    split at h
    · injection h with h
      subst h
      rfl
    · split at h
      · injection h with h
        subst h
        rfl
      · split at h
        · exact absurd h (by simp)
        · split at h
          · split at h
            · injection h with h
              subst h
              rw [getKey_setKey_ne (by decide)]
              rfl
            · injection h with h
              subst h
              rw [getKey_setKey_ne (by decide)]
              rfl
          · injection h with h
            subst h
            rw [getKey_setKey_ne (by decide)]
            rfl

theorem C4_witness :
    getOrdersCurrentUser_v1 7 {} =
      .ok ⟨[("customer", .oid 7)], [("createdAt", -1)], 0, 5⟩ ∧
    getKey (⟨[("customer", .oid 7)], [("createdAt", -1)], 0, 5⟩ :
        QueryDescriptor).filter "customer" = some (.oid 7) :=
  ⟨by decide, (C4_customer_scoped 7 {}).1 _ (by decide)⟩

/-- Claim C5: for every raw page and limit input (absent, empty, negative,
zero or non-numeric included) the normalized page is at least 1 and the
normalized limit lies in the interval from 1 to the endpoint maximum; the
normalizer is total, so malformed input never raises an error. -/
theorem C5_pagination_normalized (parse : String → Option Int) (maxL dflt : Int)
    (page limit : Option String) (hmax : 1 ≤ maxL) :
    1 ≤ normalizePage parse page ∧
    1 ≤ normalizeLimit parse maxL dflt limit ∧
    normalizeLimit parse maxL dflt limit ≤ maxL :=
  ⟨le_max_left 1 _, le_min hmax (le_max_left 1 _), min_le_left _ _⟩

theorem C5_witness :
    (1 : Int) ≤ 10 ∧
    (1 ≤ normalizePage jsParseInt10 (some "-7") ∧
     1 ≤ normalizeLimit jsParseInt10 10 10 (some "abc") ∧
     normalizeLimit jsParseInt10 10 10 (some "abc") ≤ 10) :=
  ⟨by decide,
    C5_pagination_normalized jsParseInt10 10 10 (some "-7") (some "abc") (by decide)⟩

/-- Claim C6: in the admin orders listing (first variant) and the customers
listing, a search string whose escaped form exceeds 100 characters makes the
handler answer 400 BadRequest before any query descriptor is built. -/
theorem C6_long_search_rejected (u : Option UserCtx) (qo : OrdersQuery)
    (qc : CustomersQuery) (s : String) (hadm : adminCheck u = true)
    (hlen : (escapeStringRegexp s).length > 100) :
    (qo.search = some s → getOrders_v1 u qo = .badRequest searchTooLongMsg) ∧
    (qc.search = some s → getCustomers u qc = .badRequest searchTooLongMsg) := by
  have hne : s.isEmpty = false := by
    by_contra hc
    rw [Bool.not_eq_false] at hc
    have := escape_empty_of_isEmpty hc
    omega
  have hv1 : ∀ f, stepSearchV1 (some s) f = .error searchTooLongMsg := by
    intro f
    unfold stepSearchV1
    dsimp only
    rw [if_neg (by simp [hne]), if_pos hlen]
  have hcst : ∀ f, stepSearchCustomers (some s) f = .error searchTooLongMsg := by
    intro f
    unfold stepSearchCustomers
    dsimp only
    rw [if_neg (by simp [hne]), if_pos hlen]
  constructor
  · intro hs
    simp [getOrders_v1, hadm, hs, hv1]
  · intro hs
    simp [getCustomers, hadm, hs, hcst]

theorem C6_witness :
    adminCheck (some ⟨["admin"]⟩) = true ∧
    (escapeStringRegexp (String.mk (List.replicate 26 '-'))).length > 100 ∧
    getOrders_v1 (some ⟨["admin"]⟩)
        { search := some (String.mk (List.replicate 26 '-')) } =
      .badRequest searchTooLongMsg :=
  ⟨by decide, by decide,
    (C6_long_search_rejected (some ⟨["admin"]⟩)
        { search := some (String.mk (List.replicate 26 '-')) } {}
        (String.mk (List.replicate 26 '-')) (by decide) (by decide)).1 rfl⟩

/-- Claim C7 (corrected): end-of-day normalization of the parsed upper date
bound (hour 23, minute 59, second 59, millisecond 999, calendar day kept)
holds in the first order.ts getOrders variant and in the customers listing,
and a bound that does not parse is silently omitted; the second order.ts
variant uses the parsed date without normalization (see the
counterexample). -/
theorem C7_upper_bound_end_of_day :
    (∀ d : JsDate, (endOfDay d).hour = 23 ∧ (endOfDay d).minute = 59 ∧
      (endOfDay d).second = 59 ∧ (endOfDay d).ms = 999 ∧
      (endOfDay d).year = d.year ∧ (endOfDay d).month = d.month ∧
      (endOfDay d).day = d.day) ∧
    (∀ (u : Option UserCtx) (q : OrdersQuery) (d : QueryDescriptor),
      getOrders_v1 u q = .ok d →
      dateHiOf (getKey d.filter "createdAt") =
        (optTruthyDateParse q.orderDateTo).map endOfDay) ∧
    (∀ (u : Option UserCtx) (q : CustomersQuery) (d : QueryDescriptor),
      getCustomers u q = .ok d →
      dateHiOf (getKey d.filter "createdAt") =
        (optTruthyDateParse q.registrationDateTo).map endOfDay) := by
  refine ⟨fun d => ⟨rfl, rfl, rfl, rfl, rfl, rfl, rfl⟩, ?_, ?_⟩
  · intro u q d h
    simp only [getOrders_v1] at h
    split at h
    · exact absurd h (by simp)
    · split at h
      · exact absurd h (by simp)
      · rename_i f6 heq
        injection h with h
        subst h
        rw [getKey_searchV1_ne heq (by decide), getKey_dateOnlyLteEodV1_eq]
        cases hod : optTruthyDateParse q.orderDateTo with
        | some dd => rfl
        | none =>
          simp only [Option.map_none']
          apply dateHi_dateOnlyGteV1_none
          rw [getKey_numOnlyLteV1_ne (by decide), getKey_numOnlyGteV1_ne (by decide),
            getKey_stepStatus_ne (by decide)]
          rfl
  · intro u q d h
    simp only [getCustomers] at h
    split at h
    · exact absurd h (by simp)
    · split at h
      · exact absurd h (by simp)
      · rename_i f9 heq
        injection h with h
        subst h
        rw [getKey_searchCust_ne heq (by decide),
          getKey_numSpreadLte_ne (by decide), getKey_numSpreadGte_ne (by decide),
          getKey_numSpreadLte_ne (by decide), getKey_numSpreadGte_ne (by decide),
          getKey_dateSpreadLteEod_ne (by decide), getKey_dateSpreadGte_ne (by decide),
          getKey_dateSpreadLteEod_eq]
        cases hod : optTruthyDateParse q.registrationDateTo with
        | some dd => rfl
        | none =>
          simp only [Option.map_none']
          apply dateHi_dateSpreadGte_none
          rfl

theorem C7_witness :
    getOrders_v1 (some ⟨["admin"]⟩) { orderDateTo := some "2024-08-01" } =
      .ok ⟨[("createdAt", .dateRange none (some ⟨2024, 8, 1, 23, 59, 59, 999⟩))],
           [("createdAt", -1)], 0, 10⟩ ∧
    dateHiOf (getKey (⟨[("createdAt",
            .dateRange none (some ⟨2024, 8, 1, 23, 59, 59, 999⟩))],
          [("createdAt", -1)], 0, 10⟩ : QueryDescriptor).filter "createdAt") =
      (optTruthyDateParse (some "2024-08-01")).map endOfDay :=
  ⟨by decide,
    C7_upper_bound_end_of_day.2.1 (some ⟨["admin"]⟩)
      { orderDateTo := some "2024-08-01" } _ (by decide)⟩

theorem C7_counterexample :
    getOrders_v2 none { orderDateTo := some "2024-08-01" } =
      .ok ⟨[("createdAt", .dateRange none (some ⟨2024, 8, 1, 0, 0, 0, 0⟩))],
           [("createdAt", -1)], 0, 10⟩ ∧
    (⟨2024, 8, 1, 0, 0, 0, 0⟩ : JsDate) ≠ endOfDay ⟨2024, 8, 1, 0, 0, 0, 0⟩ :=
  ⟨by decide, by decide⟩

/-- Claim C8 (corrected): in the first order.ts variant and in the customers
listing a numeric bound is included only when it parses nonnegative: an
empty, unparsable or negative parameter contributes no bound there (proved
for order.ts totalAmount and for the customers totalAmount and orderCount
ranges).  The second order.ts variant instead includes every parsed bound
clamped by Math.max(0, value), so a negative input still produces a bound
(0).  In all three cited variants every numeric bound present in the filter
is nonnegative and no malformed numeric parameter ever raises an error. -/
theorem C8_numeric_bounds :
    (∀ (u : Option UserCtx) (q : OrdersQuery) (d : QueryDescriptor),
      getOrders_v1 u q = .ok d → ∀ e ∈ d.filter, numEntryNonneg e = true) ∧
    (∀ (u : Option UserCtx) (q : CustomersQuery) (d : QueryDescriptor),
      getCustomers u q = .ok d → ∀ e ∈ d.filter, numEntryNonneg e = true) ∧
    (∀ (u : Option UserCtx) (q : OrdersQuery) (d : QueryDescriptor),
      getOrders_v2 u q = .ok d → ∀ e ∈ d.filter, numEntryNonneg e = true) ∧
    (∀ (u : Option UserCtx) (q : OrdersQuery) (d : QueryDescriptor),
      getOrders_v1 u q = .ok d →
      noNumContrib q.totalAmountFrom → noNumContrib q.totalAmountTo →
      getKey d.filter "totalAmount" = none) ∧
    (∀ (u : Option UserCtx) (q : CustomersQuery) (d : QueryDescriptor),
      getCustomers u q = .ok d →
      noNumContrib q.totalAmountFrom → noNumContrib q.totalAmountTo →
      getKey d.filter "totalAmount" = none) ∧
    (∀ (u : Option UserCtx) (q : CustomersQuery) (d : QueryDescriptor),
      getCustomers u q = .ok d →
      noNumContrib q.orderCountFrom → noNumContrib q.orderCountTo →
      getKey d.filter "orderCount" = none) ∧
    (∀ (u : Option UserCtx) (q : OrdersQuery) (d : QueryDescriptor)
      (s : String) (a : JsNum),
      getOrders_v2 u q = .ok d → q.totalAmountFrom = some s →
      s.isEmpty = false → jsToNumber s = some a →
      (getNumRange d.filter "totalAmount").1 = some a.max0) := by
  refine ⟨?_, ?_, ?_, ?_, ?_, ?_, ?_⟩
  · intro u q d h e he
    exact orderOK_numNonneg (getOrders_v1_filter_ok h e he)
  · intro u q d h e he
    exact custOK_numNonneg (getCustomers_filter_ok h e he)
  · intro u q d h e he
    exact getOrders_v2_filter_nonneg h e he
  · intro u q d h hFrom hTo
    simp only [getOrders_v1] at h
    split at h
    · exact absurd h (by simp)
    · split at h
      · exact absurd h (by simp)
      · rename_i f6 heq
        injection h with h
        subst h
        rw [getKey_searchV1_ne heq (by decide), getKey_dateOnlyLteEodV1_ne (by decide),
          getKey_dateOnlyGteV1_ne (by decide), numOnlyLteV1_skip hTo,
          numOnlyGteV1_skip hFrom, getKey_stepStatus_ne (by decide)]
        rfl
  · intro u q d h hFrom hTo
    simp only [getCustomers] at h
    split at h
    · exact absurd h (by simp)
    · split at h
      · exact absurd h (by simp)
      · rename_i f9 heq
        injection h with h
        subst h
        rw [getKey_searchCust_ne heq (by decide),
          getKey_numSpreadLte_ne (by decide), getKey_numSpreadGte_ne (by decide),
          numSpreadLte_skip hTo, numSpreadGte_skip hFrom,
          getKey_dateSpreadLteEod_ne (by decide), getKey_dateSpreadGte_ne (by decide),
          getKey_dateSpreadLteEod_ne (by decide), getKey_dateSpreadGte_ne (by decide)]
        rfl
  · intro u q d h hFrom hTo
    simp only [getCustomers] at h
    split at h
    · exact absurd h (by simp)
    · split at h
      · exact absurd h (by simp)
      · rename_i f9 heq
        injection h with h
        subst h
        rw [getKey_searchCust_ne heq (by decide),
          numSpreadLte_skip hTo, numSpreadGte_skip hFrom,
          getKey_numSpreadLte_ne (by decide), getKey_numSpreadGte_ne (by decide),
          getKey_dateSpreadLteEod_ne (by decide), getKey_dateSpreadGte_ne (by decide),
          getKey_dateSpreadLteEod_ne (by decide), getKey_dateSpreadGte_ne (by decide)]
        rfl
  · intro u q d s a h hFrom hne hparse
    simp only [getOrders_v2] at h
    split at h
    · exact absurd h (by simp)
    · rename_i f6 heq
      injection h with h
      subst h
      have h1 : getKey f6 "totalAmount" =
          getKey (numClampLte "totalAmount" q.totalAmountTo
            (numClampGte "totalAmount" q.totalAmountFrom
              (stepStatus q.status []))) "totalAmount" := by
        rw [getKey_searchV2_ne heq (by decide), getKey_dateSpreadLteRaw_ne (by decide),
          getKey_dateSpreadGte_ne (by decide)]
      rw [getNumRange_congr h1, getNumRange_fst_numClampLte, hFrom,
        getNumRange_fst_numClampGte_fires hne hparse]

theorem C8_witness :
    getOrders_v2 none { totalAmountFrom := some "-5" } =
      .ok ⟨[("totalAmount", .numRange (some (.fin 0)) none)],
           [("createdAt", -1)], 0, 10⟩ ∧
    (∀ e ∈ (⟨[("totalAmount", .numRange (some (.fin 0)) none)],
           [("createdAt", -1)], 0, 10⟩ : QueryDescriptor).filter,
      numEntryNonneg e = true) ∧
    getCustomers (some ⟨["admin"]⟩) { totalAmountFrom := some "-3" } =
      .ok ⟨[], [("createdAt", -1)], 0, 10⟩ ∧
    getKey (⟨[], [("createdAt", -1)], 0, 10⟩ : QueryDescriptor).filter
      "totalAmount" = none ∧
    (getNumRange (⟨[("totalAmount", .numRange (some (.fin 0)) none)],
        [("createdAt", -1)], 0, 10⟩ : QueryDescriptor).filter "totalAmount").1 =
      some ((JsNum.fin (-5)).max0) := by
  refine ⟨by decide, ?_, by decide, ?_, ?_⟩
  · exact C8_numeric_bounds.2.2.1 none { totalAmountFrom := some "-5" } _ (by decide)
  · exact C8_numeric_bounds.2.2.2.2.1 (some ⟨["admin"]⟩)
      { totalAmountFrom := some "-3" } _ (by decide)
      (fun s hs => by
        injection hs with hs
        subst hs
        exact Or.inr (Or.inr ⟨.fin (-3), by decide, by decide⟩))
      (fun s hs => Option.noConfusion hs)
  · exact C8_numeric_bounds.2.2.2.2.2.2 none { totalAmountFrom := some "-5" } _
      "-5" (.fin (-5)) (by decide) rfl (by decide) (by decide)

theorem C8_counterexample :
    jsToNumber "-5" = some (.fin (-5)) ∧ (JsNum.fin (-5)).nonneg = false ∧
    getOrders_v2 none { totalAmountFrom := some "-5" } =
      .ok ⟨[("totalAmount", .numRange (some (.fin 0)) none)],
           [("createdAt", -1)], 0, 10⟩ :=
  ⟨by decide, by decide, by decide⟩

/-- Claim C9: every modelled list read uses skip = (pageNum - 1) * limitNum
and limit = limitNum, counts over the same filter unaffected by pagination,
and reports totalPages = ceil(totalCount / limitNum).  For the products
listing this is proved with its item count min(limit, remaining) and the
12-products page=1 limit=5 scenario (5 items, totalPages 3, currentPage 1,
pageSize 5); for the admin orders listing (order.ts lines 100 to 128) the
executor reads with the descriptor skip and limit, counts the documents
matching the same filter with no skip and limit applied, satisfies the
ceiling bounds, and the filter itself does not depend on the page and limit
parameters. -/
theorem C9_pagination_execution :
    (∀ (α : Type) (store : List α) (page limit : Option String),
      (getProducts store page limit).items.length =
        min (normalizeLimit jsParseIntDefault 100 5 limit).toNat
          (store.length -
            ((normalizePage jsParseIntDefault page - 1) *
              normalizeLimit jsParseIntDefault 100 5 limit).toNat) ∧
      (getProducts store page limit).totalProducts = store.length ∧
      (getProducts store page limit).totalPages =
        ceilDiv store.length (normalizeLimit jsParseIntDefault 100 5 limit).toNat ∧
      store.length ≤ (getProducts store page limit).totalPages *
        (getProducts store page limit).pageSize.toNat ∧
      (0 < store.length →
        ((getProducts store page limit).totalPages - 1) *
          (getProducts store page limit).pageSize.toNat < store.length)) ∧
    ((getProducts (List.range 12) (some "1") (some "5")).items.length = 5 ∧
     (getProducts (List.range 12) (some "1") (some "5")).totalPages = 3 ∧
     (getProducts (List.range 12) (some "1") (some "5")).currentPage = 1 ∧
     (getProducts (List.range 12) (some "1") (some "5")).pageSize = 5) ∧
    (∀ (α : Type) (store : List α) (matchesF : MongoFilter → α → Bool)
      (sortBy : List (String × Int) → List α → List α),
      (∀ s l, (sortBy s l).length = l.length) →
      ∀ (u : Option UserCtx) (q : OrdersQuery) (d : QueryDescriptor)
        (r : OrdersPage α),
      getOrders_v1 u q = .ok d →
      getOrders_v1_exec store matchesF sortBy u q = .ok r →
      d.skip = ((normalizePage jsParseInt10 q.page - 1) *
        normalizeLimit jsParseInt10 10 10 q.limit).toNat ∧
      d.limit = (normalizeLimit jsParseInt10 10 10 q.limit).toNat ∧
      r.orders.length =
        min d.limit ((store.filter (matchesF d.filter)).length - d.skip) ∧
      r.totalOrders = (store.filter (matchesF d.filter)).length ∧
      r.totalPages = ceilDiv r.totalOrders d.limit ∧
      r.currentPage = normalizePage jsParseInt10 q.page ∧
      r.pageSize = d.limit ∧
      r.totalOrders ≤ r.totalPages * d.limit ∧
      (0 < r.totalOrders → (r.totalPages - 1) * d.limit < r.totalOrders)) ∧
    (∀ (u : Option UserCtx) (q : OrdersQuery) (p l : Option String)
      (d d' : QueryDescriptor),
      getOrders_v1 u q = .ok d →
      getOrders_v1 u { q with page := p, limit := l } = .ok d' →
      d'.filter = d.filter) := by
  refine ⟨?_, ⟨by decide, by decide, by decide, by decide⟩, ?_, ?_⟩
  · intro α store page limit
    have hL : (1 : Int) ≤ normalizeLimit jsParseIntDefault 100 5 limit :=
      le_min (by norm_num) (le_max_left 1 _)
    have hLpos : 0 < (normalizeLimit jsParseIntDefault 100 5 limit).toNat := by omega
    refine ⟨?_, rfl, rfl, ?_, ?_⟩
    · simp only [getProducts]
      simp [List.length_take, List.length_drop]
    · exact le_ceilDiv_mul _ _ hLpos
    · intro hpos
      exact ceilDiv_pred_mul_lt _ _ hLpos hpos
  · intro α store matchesF sortBy hsort u q d r h1 h2
    obtain ⟨hskip, hlimit⟩ := getOrders_v1_skip_limit h1
    unfold getOrders_v1_exec at h2
    rw [h1] at h2
    dsimp only at h2
    injection h2 with h2
    subst h2
    have hL : (1 : Int) ≤ normalizeLimit jsParseInt10 10 10 q.limit :=
      le_min (by norm_num) (le_max_left 1 _)
    have hdlpos : 0 < d.limit := by
      rw [hlimit]
      omega
    refine ⟨hskip, hlimit, ?_, rfl, rfl, rfl, rfl, ?_, ?_⟩
    · dsimp only
      simp [List.length_take, List.length_drop, hsort]
    · exact le_ceilDiv_mul _ _ hdlpos
    · intro hpos
      exact ceilDiv_pred_mul_lt _ _ hdlpos hpos
  · intro u q p l d d' h h'
    simp only [getOrders_v1] at h h'
    by_cases hadm : (!adminCheck u) = true
    · rw [if_pos hadm] at h
      exact absurd h (by simp)
    · rw [if_neg hadm] at h h'
      cases hs : stepSearchV1 q.search (dateOnlyLteEodV1 q.orderDateTo
          (dateOnlyGteV1 q.orderDateFrom (numOnlyLteV1 "totalAmount" q.totalAmountTo
            (numOnlyGteV1 "totalAmount" q.totalAmountFrom
              (stepStatus q.status []))))) with
      | error m =>
        rw [hs] at h
        exact absurd h (by simp)
      | ok f6 =>
        rw [hs] at h h'
        injection h with h
        injection h' with h'
        subst h
        subst h'
        rfl

theorem C9_witness :
    0 < (List.range 12).length ∧
    (((getProducts (List.range 12) (some "1") (some "5")).totalPages - 1) *
      (getProducts (List.range 12) (some "1") (some "5")).pageSize.toNat <
      (List.range 12).length) ∧
    ((⟨[0, 1, 2], 3, 1, 1, 10⟩ : OrdersPage Nat).totalPages =
      ceilDiv (⟨[0, 1, 2], 3, 1, 1, 10⟩ : OrdersPage Nat).totalOrders
        (⟨[], [("createdAt", -1)], 0, 10⟩ : QueryDescriptor).limit) ∧
    (((⟨[0, 1, 2], 3, 1, 1, 10⟩ : OrdersPage Nat).totalPages - 1) *
      (⟨[], [("createdAt", -1)], 0, 10⟩ : QueryDescriptor).limit <
      (⟨[0, 1, 2], 3, 1, 1, 10⟩ : OrdersPage Nat).totalOrders) ∧
    (⟨[], [("createdAt", -1)], 0, 10⟩ : QueryDescriptor).filter =
      (⟨[], [("createdAt", -1)], 0, 10⟩ : QueryDescriptor).filter := by
  refine ⟨by decide, ?_, ?_, ?_, ?_⟩
  · exact (C9_pagination_execution.1 Nat (List.range 12)
      (some "1") (some "5")).2.2.2.2 (by decide)
  · exact (C9_pagination_execution.2.2.1 Nat (List.range 3) (fun _ _ => true)
      (fun _ l => l) (fun _ _ => rfl) (some ⟨["admin"]⟩) {}
      ⟨[], [("createdAt", -1)], 0, 10⟩ ⟨[0, 1, 2], 3, 1, 1, 10⟩
      (by decide) (by decide)).2.2.2.2.1
  · exact (C9_pagination_execution.2.2.1 Nat (List.range 3) (fun _ _ => true)
      (fun _ l => l) (fun _ _ => rfl) (some ⟨["admin"]⟩) {}
      ⟨[], [("createdAt", -1)], 0, 10⟩ ⟨[0, 1, 2], 3, 1, 1, 10⟩
      (by decide) (by decide)).2.2.2.2.2.2.2.2 (by decide)
  · exact C9_pagination_execution.2.2.2 (some ⟨["admin"]⟩) {}
      (some "2") (some "3") ⟨[], [("createdAt", -1)], 0, 10⟩
      ⟨[], [("createdAt", -1)], 3, 3⟩ (by decide) (by decide)

/-- Claim C10: the current-user profile update can change at most the name and
email fields of the stored user; whatever the request body contains (roles,
password and tokens attempts included), the identifier, password, roles,
tokens and phone of the stored user are unchanged on success, and on a
rejected email nothing is written at all. -/
theorem C10_update_frame (isEmail : String → Bool) (b : UpdateBody)
    (u u' : StoredUser) (h : updateCurrentUser isEmail b u = .ok u') :
    u'.id = u.id ∧ u'.password = u.password ∧ u'.roles = u.roles ∧
    u'.tokens = u.tokens ∧ u'.phone = u.phone := by
  unfold updateCurrentUser at h
  cases hb : buildUpdateData isEmail b with
  | error m =>
    rw [hb] at h
    exact absurd h (by simp)
  | ok p =>
    rw [hb] at h
    obtain ⟨n?, e?⟩ := p
    dsimp only at h
    injection h with h
    subst h
    exact ⟨rfl, rfl, rfl, rfl, rfl⟩

theorem C10_witness :
    updateCurrentUser (fun _ => true)
        { name := some "Eve", roles := some ["admin"], password := some "pw2",
          tokens := some [] }
        ⟨1, "Al", "a@b.c", "pw", ["user"], ["t1"], "555"⟩ =
      .ok ⟨1, "Eve", "a@b.c", "pw", ["user"], ["t1"], "555"⟩ ∧
    ((1 : Nat) = 1 ∧ "pw" = "pw" ∧ ["user"] = ["user"] ∧
      ["t1"] = ["t1"] ∧ "555" = "555") :=
  ⟨by decide,
    C10_update_frame (fun _ => true)
      { name := some "Eve", roles := some ["admin"], password := some "pw2",
        tokens := some [] }
      ⟨1, "Al", "a@b.c", "pw", ["user"], ["t1"], "555"⟩
      ⟨1, "Eve", "a@b.c", "pw", ["user"], ["t1"], "555"⟩ (by decide)⟩

end BadServer









